import Mathlib

/-!
# IVI driver wrappers `agssa_wrapper.h` and `agxsan_wrapper.h`

A shallow embedding of the two C++ facades.  The vendor driver is external: every
wrapper operation is modelled as a function of the reply the driver gives to the
call the wrapper issues, and of the previous contents of the output argument;
it returns the status and the new contents of the output argument.

Conventions
* `ViInt32`, `ViInt64`, `ViStatus` are mathematical integers (the driver writes
  values of the C type, no wrapper arithmetic on them can overflow);
* a `ViReal64` is a finite double, which is a rational number, or one of the
  three non-finite values;
* behaviour the C++ standard leaves undefined, and exceptions that leave a
  `noexcept` function, are results `Except.error` of type `Fault`;
* status codes of `visa.h` and attribute values of `AgSsa.h` are not declared in
  the wrappers; they are parameters (`VisaCodes`, `BandCodes`).
-/

/-! ## Driver types -/

abbrev ViInt32 := Int
abbrev ViStatus := Int
abbrev ViBoolean := Bool

/-- A value of the C type `double`: a finite one is a rational number. -/
inductive ViReal64 where
  | finite (q : ℚ)
  | posInf
  | negInf
  | nan
  deriving DecidableEq

instance : OfNat ViReal64 n := ⟨ViReal64.finite n⟩

/-- Ways in which a wrapper operation can fail to return. -/
inductive Fault where
  /-- a floating-point value converted to an integer type that cannot hold it -/
  | undefinedConversion
  /-- an element read outside an array or vector -/
  | outOfBounds
  /-- an exception leaving a `noexcept` function (`std::terminate`) -/
  | uncaughtException
  /-- the loop never ends, or the driver trace ends before the loop does -/
  | noReturn
  deriving DecidableEq, Repr

instance instDecidableEqExcept {ε α : Type} [DecidableEq ε] [DecidableEq α] :
    DecidableEq (Except ε α)
  | .ok a, .ok b =>
    if h : a = b then isTrue (by rw [h]) else isFalse (fun h' => h (by cases h'; rfl))
  | .error a, .error b =>
    if h : a = b then isTrue (by rw [h]) else isFalse (fun h' => h (by cases h'; rfl))
  | .ok _, .error _ => isFalse (fun h' => by cases h')
  | .error _, .ok _ => isFalse (fun h' => by cases h')

/-- The status codes of `visa.h` the wrappers name. -/
structure VisaCodes where
  VI_SUCCESS : ViStatus
  VI_SUCCESS_MAX_CNT : ViStatus
  VI_ERROR_INV_RESPONSE : ViStatus

/-- The values the VISA standard gives to the three codes. -/
def visa : VisaCodes :=
  { VI_SUCCESS := 0
    VI_SUCCESS_MAX_CNT := 0x3FFF0006
    VI_ERROR_INV_RESPONSE := -2147483648 + 0x3FFF006F }

/-- Conversion `ViInt32(x)` of a double: the fractional part is discarded
(truncation toward zero); undefined when the truncated value is not a `ViInt32`. -/
def toViInt32 : ViReal64 → Except Fault ViInt32
  | .finite q =>
    let t := Int.tdiv q.num q.den
    if -2147483648 ≤ t ∧ t ≤ 2147483647 then .ok t else .error .undefinedConversion
  | _ => .error .undefinedConversion

/-- Conversion `static_cast<ViReal64>(n)` of a `ViInt32`. -/
def ofViInt32 (n : ViInt32) : ViReal64 := .finite n

namespace AgSsa

/-! ## `agssa_wrapper.h`: phase-noise measurements -/

structure CCarrierData where
  Frequency : ViReal64
  Power : ViReal64
  deriving DecidableEq

structure CSpurData where
  Frequency : ViReal64
  Amplitude : ViReal64
  Unknown : ViReal64
  deriving DecidableEq

abbrev CSpursData := List CSpurData

/-- Size in bytes of a `ViReal64`. -/
def sizeofViReal64 : Nat := 8

/-- Value of `sizeof(CCarrierData)`: two `ViReal64` members. -/
def sizeofCCarrierData : Nat := 2 * sizeofViReal64

/-- Value of `sizeof(CSpurData)`: three `ViReal64` members. -/
def sizeofCSpurData : Nat := 3 * sizeofViReal64

/-- What `AgSsa_ApplicationPhaseNoiseMeasurementsGet_CarrierData` leaves behind:
its status, the receive buffer seen as an array of `ViReal64`, and the element
count it reports. -/
structure CarrierDataReply where
  status : ViStatus
  buf : Nat → ViReal64
  retSize : ViInt32

/-- Embedding of `CAgSsaApplicationPNMeasurements::QueryCarrierData`.  The driver is
given the capacity it is called with; `retData` is the receive buffer read back
as a `CCarrierData` (element 0 is `Frequency`, element 1 is `Power`). -/
def QueryCarrierData (V : VisaCodes) (Get_CarrierData : ViInt32 → CarrierDataReply)
    (data : CCarrierData) : ViStatus × CCarrierData :=
  let reply := Get_CarrierData sizeofCCarrierData
  let retData : CCarrierData := ⟨reply.buf 0, reply.buf 1⟩
  let retSize := reply.retSize
  let status := reply.status
  if status = V.VI_SUCCESS ∧ retSize = ((sizeofCCarrierData / sizeofViReal64 : Nat) : Int) then
    (status, retData)
  else
    (status, data)

/-! ## `agssa_wrapper.h`: acquisition and frequency -/

/-- Embedding of `CAgSsaApplicationPNAquisition::QueryCorrelation`; `status` and
`correlation` are what `AgSsa_GetAttributeViInt32` returned and stored. -/
def QueryCorrelation (V : VisaCodes) (status : ViStatus) (correlation : ViInt32)
    (value : Int) : ViStatus × Int :=
  if status = V.VI_SUCCESS then (status, correlation) else (status, value)

/-- An `enum class FrequencyStartOffset : ViInt32`: any `ViInt32` can be stored. -/
structure FrequencyStartOffset where
  val : ViInt32
  deriving DecidableEq

namespace FrequencyStartOffset
def _1Hz : FrequencyStartOffset := ⟨1⟩
def _10Hz : FrequencyStartOffset := ⟨10⟩
def _100Hz : FrequencyStartOffset := ⟨100⟩
def _1kHz : FrequencyStartOffset := ⟨1000⟩
/-- The declared enumerators. -/
def enumerators : List FrequencyStartOffset := [_1Hz, _10Hz, _100Hz, _1kHz]
/-- The real values of the declared enumerators: 1, 10, 100, 1000 Hz. -/
def rawValues : List ViReal64 := enumerators.map (fun v => ofViInt32 v.val)
end FrequencyStartOffset

/-- An `enum class FrequencyStopOffset : ViInt32`. -/
structure FrequencyStopOffset where
  val : ViInt32
  deriving DecidableEq

namespace FrequencyStopOffset
def _100kHz : FrequencyStopOffset := ⟨100000⟩
def _1MHz : FrequencyStopOffset := ⟨1000000⟩
def _5MHz : FrequencyStopOffset := ⟨5000000⟩
def _10MHz : FrequencyStopOffset := ⟨10000000⟩
def _20MHz : FrequencyStopOffset := ⟨20000000⟩
def _40MHz : FrequencyStopOffset := ⟨40000000⟩
def _100MHz : FrequencyStopOffset := ⟨100000000⟩
/-- The declared enumerators. -/
def enumerators : List FrequencyStopOffset :=
  [_100kHz, _1MHz, _5MHz, _10MHz, _20MHz, _40MHz, _100MHz]
/-- The real values of the declared enumerators. -/
def rawValues : List ViReal64 := enumerators.map (fun v => ofViInt32 v.val)
end FrequencyStopOffset

/-- The values `AgSsa.h` gives to the frequency-band codes. -/
structure BandCodes where
  AGSSA_VAL_AGILENT_SSA_FREQUENCY_BAND1 : ViInt32
  AGSSA_VAL_FREQUENCY_BAND2 : ViInt32
  AGSSA_VAL_FREQUENCY_BAND3 : ViInt32
  AGSSA_VAL_FREQUENCY_BAND4 : ViInt32
  AGSSA_VAL_FREQUENCY_BAND5 : ViInt32
  AGSSA_VAL_FREQUENCY_BAND6 : ViInt32
  AGSSA_VAL_FREQUENCY_BAND_LOW : ViInt32
  AGSSA_VAL_FREQUENCY_BAND_HIGH : ViInt32

/-- An `enum class FrequencyBand : ViInt32`. -/
structure FrequencyBand where
  val : ViInt32
  deriving DecidableEq

namespace FrequencyBand
variable (B : BandCodes)
def BAND1 : FrequencyBand := ⟨B.AGSSA_VAL_AGILENT_SSA_FREQUENCY_BAND1⟩
def BAND2 : FrequencyBand := ⟨B.AGSSA_VAL_FREQUENCY_BAND2⟩
def BAND3 : FrequencyBand := ⟨B.AGSSA_VAL_FREQUENCY_BAND3⟩
def BAND4 : FrequencyBand := ⟨B.AGSSA_VAL_FREQUENCY_BAND4⟩
def BAND5 : FrequencyBand := ⟨B.AGSSA_VAL_FREQUENCY_BAND5⟩
def BAND6 : FrequencyBand := ⟨B.AGSSA_VAL_FREQUENCY_BAND6⟩
def BAND_LOW : FrequencyBand := ⟨B.AGSSA_VAL_FREQUENCY_BAND_LOW⟩
def BAND_HIGH : FrequencyBand := ⟨B.AGSSA_VAL_FREQUENCY_BAND_HIGH⟩
/-- The declared enumerators. -/
def enumerators : List FrequencyBand :=
  [BAND1 B, BAND2 B, BAND3 B, BAND4 B, BAND5 B, BAND6 B, BAND_LOW B, BAND_HIGH B]
/-- The eight declared codes. -/
def codes : List ViInt32 := (enumerators B).map (fun v => v.val)
end FrequencyBand

/-- Embedding of `CAgSsaApplicationPNFrequency::QueryFrequencyBand`; `status` and
`rawBand` are what `AgSsa_GetAttributeViInt32` returned and stored. -/
def QueryFrequencyBand (V : VisaCodes) (B : BandCodes) (status : ViStatus)
    (rawBand : ViInt32) (value : FrequencyBand) : ViStatus × FrequencyBand :=
  if status = V.VI_SUCCESS then
    let band : FrequencyBand := ⟨rawBand⟩
    if band = FrequencyBand.BAND1 B ∨ band = FrequencyBand.BAND2 B ∨
        band = FrequencyBand.BAND3 B ∨ band = FrequencyBand.BAND4 B ∨
        band = FrequencyBand.BAND5 B ∨ band = FrequencyBand.BAND6 B ∨
        band = FrequencyBand.BAND_LOW B ∨ band = FrequencyBand.BAND_HIGH B then
      (V.VI_SUCCESS, band)
    else
      (V.VI_ERROR_INV_RESPONSE, value)
  else
    (status, value)

/-- Embedding of `CAgSsaApplicationPNFrequency::ConfigureStartOffset`: the value
handed to `AgSsa_SetAttributeViReal64`. -/
def ConfigureStartOffset (value : FrequencyStartOffset) : ViReal64 :=
  ofViInt32 value.val

/-- Embedding of `CAgSsaApplicationPNFrequency::QueryStartOffset`; `status` and
`rawFrequency` are what `AgSsa_GetAttributeViReal64` returned and stored. -/
def QueryStartOffset (V : VisaCodes) (status : ViStatus) (rawFrequency : ViReal64)
    (value : FrequencyStartOffset) : Except Fault (ViStatus × FrequencyStartOffset) :=
  if status = V.VI_SUCCESS then do
    let frequency : FrequencyStartOffset := ⟨← toViInt32 rawFrequency⟩
    if frequency = FrequencyStartOffset._1Hz ∨ frequency = FrequencyStartOffset._10Hz ∨
        frequency = FrequencyStartOffset._100Hz ∨ frequency = FrequencyStartOffset._1kHz then
      pure (V.VI_SUCCESS, frequency)
    else
      pure (V.VI_ERROR_INV_RESPONSE, value)
  else
    pure (status, value)

/-- Embedding of `CAgSsaApplicationPNFrequency::ConfigureStopOffset`: the value
handed to `AgSsa_SetAttributeViReal64`. -/
def ConfigureStopOffset (value : FrequencyStopOffset) : ViReal64 :=
  ofViInt32 value.val

/-- Embedding of `CAgSsaApplicationPNFrequency::QueryStopOffset`; `status` and
`rawFrequency` are what `AgSsa_GetAttributeViReal64` returned and stored. -/
def QueryStopOffset (V : VisaCodes) (status : ViStatus) (rawFrequency : ViReal64)
    (value : FrequencyStopOffset) : Except Fault (ViStatus × FrequencyStopOffset) :=
  if status = V.VI_SUCCESS then do
    let frequency : FrequencyStopOffset := ⟨← toViInt32 rawFrequency⟩
    if frequency = FrequencyStopOffset._100kHz ∨ frequency = FrequencyStopOffset._1MHz ∨
        frequency = FrequencyStopOffset._5MHz ∨ frequency = FrequencyStopOffset._10MHz ∨
        frequency = FrequencyStopOffset._20MHz ∨ frequency = FrequencyStopOffset._40MHz ∨
        frequency = FrequencyStopOffset._100MHz then
      pure (V.VI_SUCCESS, frequency)
    else
      pure (V.VI_ERROR_INV_RESPONSE, value)
  else
    pure (status, value)

/-! ## `agssa_wrapper.h`: the spurious list -/

/-- Model of `std::string::find(separator)` from position 0: the least position at
which `separator` occurs, `none` standing for `npos`. -/
def find : List Char → List Char → Option Nat
  | [], separator => if separator.isPrefixOf [] then some 0 else none
  | c :: s, separator =>
    if separator.isPrefixOf (c :: s) then some 0 else (find s separator).map (· + 1)

/-- Model of `std::string::substr(pos, len)`: throws `std::out_of_range` when `pos`
is beyond the end. -/
def substr (s : List Char) (pos len : Nat) : Except Fault (List Char) :=
  if pos ≤ s.length then .ok ((s.drop pos).take len) else .error .uncaughtException

/-- Model of `std::string::substr(pos)`. -/
def substrFrom (s : List Char) (pos : Nat) : Except Fault (List Char) :=
  if pos ≤ s.length then .ok (s.drop pos) else .error .uncaughtException

/-- The `while (index != npos)` loop of the lambda `splitSeparatedString`, with the
statement after it.  The state is `splitted`, `start`, `index`; `fuel` bounds the
number of iterations. -/
def splitLoop (unsplitted separator : List Char) :
    Nat → List (List Char) → Nat → Option Nat → Except Fault (List (List Char))
  | _, splitted, start, none => do
    let last ← substrFrom unsplitted start
    pure (splitted ++ [last])
  | 0, _, _, some _ => .error .noReturn
  | fuel + 1, splitted, start, some index => do
    let piece ← substr unsplitted start index
    let splitted := splitted ++ [piece]
    let index := index + separator.length
    let start := start + index
    let rest ← substrFrom unsplitted start
    splitLoop unsplitted separator fuel splitted start (find rest separator)

/-- Embedding of the lambda `splitSeparatedString` of `QuerySpuriousList`.  The loop
is run for at most `unsplitted.length + 1` iterations: more happen only when the
loop never ends. -/
def splitSeparatedString (unsplitted separator : List Char) :
    Except Fault (List (List Char)) :=
  splitLoop unsplitted separator (unsplitted.length + 1) [] 0 (find unsplitted separator)

/-- Value of `spurParamsNum`, `sizeof(CSpurData) / sizeof(ViReal64)`. -/
def spurParamsNum : Nat := sizeofCSpurData / sizeofViReal64

/-- Element `v[idx]` of a vector; reading past the end is undefined. -/
def subscript (v : List (List Char)) (idx : Nat) : Except Fault (List Char) :=
  match v[idx]? with
  | some x => .ok x
  | none => .error .outOfBounds

/-- Call `std::stod(field, &sz)`: `stod` is the library function, `none` standing
for a thrown exception. -/
def callStod (stod : List Char → Option ViReal64) (field : List Char) :
    Except Fault ViReal64 :=
  match stod field with
  | some x => .ok x
  | none => .error .uncaughtException

/-- The `for (idx = 0; idx < splittedString.size(); idx += spurParamsNum)` loop of
`QuerySpuriousList`; `fuel` bounds the number of iterations. -/
def parseLoop (stod : List Char → Option ViReal64) (splittedString : List (List Char)) :
    Nat → Nat → CSpursData → Except Fault CSpursData
  | fuel, idx, spursData =>
    if idx < splittedString.length then
      match fuel with
      | 0 => .error .noReturn
      | fuel + 1 => do
        let f0 ← subscript splittedString idx
        let Frequency ← callStod stod f0
        let f1 ← subscript splittedString (idx + 1)
        let Amplitude ← callStod stod f1
        let f2 ← subscript splittedString (idx + 2)
        let Unknown ← callStod stod f2
        let spurData : CSpurData := ⟨Frequency, Amplitude, Unknown⟩
        parseLoop stod splittedString fuel (idx + spurParamsNum) (spursData ++ [spurData])
    else
      .ok spursData

/-- The parsing step of `QuerySpuriousList`: everything after the last status test.
The record loop makes at most `splittedString.size()` iterations. -/
def parseStep (stod : List Char → Option ViReal64) (retString : List Char)
    (spursData : CSpursData) : Except Fault CSpursData := do
  let splittedString ← splitSeparatedString retString [',']
  parseLoop stod splittedString splittedString.length 0 spursData

/-- Value of `retBuf.size()`. -/
def retBufSize : Nat := 8192

end AgSsa

namespace AgXSAn

/-! ## `agxsan_wrapper.h`: spurious-emission results -/

structure CSpurData where
  Number : ViReal64
  Range : ViReal64
  Frequency : ViReal64
  Amplitude : ViReal64
  Limit : ViReal64
  Unknown : ViReal64
  deriving DecidableEq

abbrev CSpursData := List CSpurData

/-- Value of `AgXSAnConstatns::RangeTableMax`. -/
def RangeTableMax : ViInt32 := 20

/-- Size in bytes of a `ViReal64`. -/
def sizeofViReal64 : Nat := 8

/-- Value of `sizeof(CSpurData)`: six `ViReal64` members. -/
def sizeofCSpurData : Nat := 6 * sizeofViReal64

def querySpursNum : Nat := 256

def spurParamsNum : Nat := sizeofCSpurData / sizeofViReal64

def queryBufSize : Nat := querySpursNum * spurParamsNum

/-- What the functor of `GetSpuriousResults` (the driver's trace read or fetch)
leaves behind: its status, the contents of `buf`, and `retBufSize`. -/
structure TraceReply where
  status : ViStatus
  buf : Nat → ViReal64
  retBufSize : ViInt32

/-- Element `buf[i]` of the array `ViReal64 buf[queryBufSize]`; reading outside
the array is undefined. -/
def readBuf (buf : Nat → ViReal64) (i : Nat) : Except Fault ViReal64 :=
  if i < queryBufSize then .ok (buf i) else .error .outOfBounds

/-- Indices of the elements of `buf` that make up the object
`*(reinterpret_cast<CSpurData *>(&buf[1]) + idx)`. -/
def spurIndices (idx : Nat) : List Nat :=
  (List.range spurParamsNum).map (fun j => 1 + spurParamsNum * idx + j)

/-- The copy `CSpurData spur = *(reinterpret_cast<CSpurData *>(&buf[1]) + idx)`:
the members are read, in declaration order, from the elements `spurIndices idx`. -/
def readSpur (buf : Nat → ViReal64) (idx : Nat) : Except Fault CSpurData := do
  let Number ← readBuf buf (1 + spurParamsNum * idx + 0)
  let Range ← readBuf buf (1 + spurParamsNum * idx + 1)
  let Frequency ← readBuf buf (1 + spurParamsNum * idx + 2)
  let Amplitude ← readBuf buf (1 + spurParamsNum * idx + 3)
  let Limit ← readBuf buf (1 + spurParamsNum * idx + 4)
  let Unknown ← readBuf buf (1 + spurParamsNum * idx + 5)
  pure ⟨Number, Range, Frequency, Amplitude, Limit, Unknown⟩

/-- The loop `for (ViInt32 idx{}; idx < retSpursNum; ++idx)` of `GetSpuriousResults`;
the first argument is the number of iterations left, `retSpursNum - idx`. -/
def spursLoop (buf : Nat → ViReal64) : Nat → Nat → CSpursData → Except Fault CSpursData
  | 0, _, spursData => .ok spursData
  | left + 1, idx, spursData => do
    let spur ← readSpur buf idx
    spursLoop buf left (idx + 1) (spursData ++ [spur])

/-- Embedding of `CAgXSAnSASpuriousEmissionsTrace::GetSpuriousResults`.  The functor
is given the capacity it is called with.  `reserve` of a negative count, converted
to `std::size_t`, throws `std::length_error`. -/
def GetSpuriousResults (V : VisaCodes) (functor : ViInt32 → TraceReply)
    (spursData : CSpursData) : Except Fault (ViStatus × CSpursData) :=
  let reply := functor queryBufSize
  let status := reply.status
  if status = V.VI_SUCCESS then
    let retSpursNum : ViInt32 := Int.tdiv reply.retBufSize spurParamsNum
    if retSpursNum < 0 then .error .uncaughtException
    else do
      let spursData ← spursLoop reply.buf retSpursNum.toNat 0 spursData
      pure (status, spursData)
  else
    pure (status, spursData)

/-- Indices of `buf` read by `GetSpuriousResults` when the driver call succeeds
with `retBufSize`, in the order in which they are read. -/
def readIndices (retBufSize : ViInt32) : List Nat :=
  (List.range (Int.tdiv retBufSize spurParamsNum).toNat).flatMap spurIndices

/-- The record whose members `Number`, `Range`, `Frequency`, `Amplitude`, `Limit`,
`Unknown` are, in that order, the six consecutive elements of `buf` that start at
index `1 + 6 * i`. -/
def recordAt (buf : Nat → ViReal64) (i : Nat) : CSpurData :=
  ⟨buf (1 + 6 * i), buf (1 + 6 * i + 1), buf (1 + 6 * i + 2), buf (1 + 6 * i + 3),
   buf (1 + 6 * i + 4), buf (1 + 6 * i + 5)⟩

/-- Embedding of `ReadSpuriousResults`: `GetSpuriousResults` on the driver's trace
read. -/
def ReadSpuriousResults (V : VisaCodes) (traceRead : ViInt32 → TraceReply)
    (spursData : CSpursData) : Except Fault (ViStatus × CSpursData) :=
  GetSpuriousResults V traceRead spursData

/-- Embedding of `FetchSpuriousResults`: `GetSpuriousResults` on the driver's trace
fetch. -/
def FetchSpuriousResults (V : VisaCodes) (traceFetch : ViInt32 → TraceReply)
    (spursData : CSpursData) : Except Fault (ViStatus × CSpursData) :=
  GetSpuriousResults V traceFetch spursData

/-! ## `agxsan_wrapper.h`: the range table -/

/-- The driver entry points of the range table. -/
inductive RangeTableEntry where
  | StartConfigureFrequency
  | StartConfigureAbsoluteAmplitudeLimit
  | StopConfigureFrequency
  | StopConfigureAbsoluteAmplitudeLimit
  | StopConfigureAbsoluteAmplitudeLimitAutoEnabled
  | BandwidthConfigureResolution
  | ConfigureEnabled
  | ConfigureAttenuation
  | ConfigureSweepPointsAutoEnabled
  | QuerySweepTime
  | ConfigurePeakThreshold
  deriving DecidableEq, Repr

/-- A call of a range-table entry point: the element count and the table passed. -/
structure RangeTableCall (α : Type) where
  entry : RangeTableEntry
  size : ViInt32
  data : List α
  deriving DecidableEq

/-- Both `static_assert`s of `staticAssertRangeTable<size>` hold. -/
def staticAssertRangeTable (size : ViInt32) : Bool :=
  decide (size ≤ RangeTableMax) && decide (size > 0)

/-- Both `static_assert`s of `staticAssertArgsSize<size>` hold. -/
def staticAssertArgsSize (size : Nat) : Bool :=
  decide ((size : Int) ≤ RangeTableMax) && decide (size > 0)

/-- Body shared by the table form of the range-table operations: a table is a
`std::array` whose length is the template argument `size`; the instantiation is
rejected (`none`) when a `static_assert` fails, else the driver is called with
`size` and `table.data()`. -/
def tableForm {α : Type} (entry : RangeTableEntry) (table : List α) :
    Option (RangeTableCall α) :=
  let size : ViInt32 := table.length
  if staticAssertRangeTable size then some ⟨entry, size, table⟩ else none

/-- Body shared by the argument-list form: the arguments are copied to the table
`tmp`, and the driver is called with `tmp.size()` and `tmp.data()`. -/
def argsForm {α : Type} (entry : RangeTableEntry) (args : List α) :
    Option (RangeTableCall α) :=
  if staticAssertArgsSize args.length then
    let tmp : List α := args
    some ⟨entry, tmp.length, tmp⟩
  else none

namespace Start
def ConfigureFrequency (table : List ViReal64) :=
  tableForm .StartConfigureFrequency table
def ConfigureFrequencyArgs (args : List ViReal64) :=
  argsForm .StartConfigureFrequency args
def ConfigureAbsoluteAmplitudeLimit (table : List ViReal64) :=
  tableForm .StartConfigureAbsoluteAmplitudeLimit table
def ConfigureAbsoluteAmplitudeLimitArgs (args : List ViReal64) :=
  argsForm .StartConfigureAbsoluteAmplitudeLimit args
end Start

namespace Stop
def ConfigureFrequency (table : List ViReal64) :=
  tableForm .StopConfigureFrequency table
def ConfigureFrequencyArgs (args : List ViReal64) :=
  argsForm .StopConfigureFrequency args
def ConfigureAbsoluteAmplitudeLimit (table : List ViReal64) :=
  tableForm .StopConfigureAbsoluteAmplitudeLimit table
def ConfigureAbsoluteAmplitudeLimitArgs (args : List ViReal64) :=
  argsForm .StopConfigureAbsoluteAmplitudeLimit args
def ConfigureAbsoluteAmplitudeLimitAutoEnabled (table : List ViBoolean) :=
  tableForm .StopConfigureAbsoluteAmplitudeLimitAutoEnabled table
def ConfigureAbsoluteAmplitudeLimitAutoEnabledArgs (args : List ViBoolean) :=
  argsForm .StopConfigureAbsoluteAmplitudeLimitAutoEnabled args
end Stop

namespace Bandwidth
def ConfigureResolution (table : List ViReal64) :=
  tableForm .BandwidthConfigureResolution table
def ConfigureResolutionArgs (args : List ViReal64) :=
  argsForm .BandwidthConfigureResolution args
end Bandwidth

def ConfigureEnabled (table : List ViBoolean) :=
  tableForm .ConfigureEnabled table
def ConfigureEnabledArgs (args : List ViBoolean) :=
  argsForm .ConfigureEnabled args
def ConfigureAttenuation (table : List ViReal64) :=
  tableForm .ConfigureAttenuation table
def ConfigureAttenuationArgs (args : List ViReal64) :=
  argsForm .ConfigureAttenuation args
def ConfigureSweepPointsAutoEnabled (table : List ViBoolean) :=
  tableForm .ConfigureSweepPointsAutoEnabled table
def ConfigureSweepPointsAutoEnabledArgs (args : List ViBoolean) :=
  argsForm .ConfigureSweepPointsAutoEnabled args
def QuerySweepTime (table : List ViReal64) :=
  tableForm .QuerySweepTime table
def QuerySweepTimeArgs (args : List ViReal64) :=
  argsForm .QuerySweepTime args
def ConfigurePeakThreshold (table : List ViReal64) :=
  tableForm .ConfigurePeakThreshold table
def ConfigurePeakThresholdArgs (args : List ViReal64) :=
  argsForm .ConfigurePeakThreshold args

/-- The range-table operations on real-valued tables, in both forms. -/
def realOperations : List (List ViReal64 → Option (RangeTableCall ViReal64)) :=
  [Start.ConfigureFrequency, Start.ConfigureFrequencyArgs,
   Start.ConfigureAbsoluteAmplitudeLimit, Start.ConfigureAbsoluteAmplitudeLimitArgs,
   Stop.ConfigureFrequency, Stop.ConfigureFrequencyArgs,
   Stop.ConfigureAbsoluteAmplitudeLimit, Stop.ConfigureAbsoluteAmplitudeLimitArgs,
   Bandwidth.ConfigureResolution, Bandwidth.ConfigureResolutionArgs,
   ConfigureAttenuation, ConfigureAttenuationArgs,
   QuerySweepTime, QuerySweepTimeArgs,
   ConfigurePeakThreshold, ConfigurePeakThresholdArgs]

/-- The range-table operations on boolean tables, in both forms. -/
def booleanOperations : List (List ViBoolean → Option (RangeTableCall ViBoolean)) :=
  [Stop.ConfigureAbsoluteAmplitudeLimitAutoEnabled,
   Stop.ConfigureAbsoluteAmplitudeLimitAutoEnabledArgs,
   ConfigureEnabled, ConfigureEnabledArgs,
   ConfigureSweepPointsAutoEnabled, ConfigureSweepPointsAutoEnabledArgs]

/-- The bound on one range-table operation `op` and a table: the operation is admitted exactly when the
table has between 1 and `RangeTableMax` entries, and then the driver is called
with the table and with its number of entries as element count. -/
def BoundedCall {α : Type} (op : List α → Option (RangeTableCall α))
    (table : List α) : Prop :=
  ((op table).isSome ↔ 1 ≤ table.length ∧ (table.length : Int) ≤ RangeTableMax) ∧
  ∀ call, op table = some call → call.size = (table.length : Int) ∧ call.data = table

end AgXSAn

/-! ## Timeouts, options and sessions of both wrappers -/

abbrev ViSession := Nat

/-- Conversion `ViInt32(x)` of a 64-bit integer (`timeout.count()`): the value of
`ViInt32` congruent to `x` modulo 2^32 (two's complement narrowing). -/
def narrowToViInt32 (x : Int) : ViInt32 :=
  (x + 2147483648) % 4294967296 - 2147483648

namespace AgSsa

/-- Embedding of `CAgSsaSystem::WaitForOperationComplete`; `timeout` is
`timeout.count()`, `driver` is `AgSsa_SystemWaitForOperationComplete` on the
session, as a function of the timeout it is passed. -/
def WaitForOperationComplete (driver : ViInt32 → ViStatus) (timeout : Int) : ViStatus :=
  driver (narrowToViInt32 timeout)

/-- An `enum class AgSsaModel : ViUInt32`: any `ViUInt32` can be stored. -/
structure AgSsaModel where
  val : Nat
  deriving DecidableEq

namespace AgSsaModel
def Common : AgSsaModel := ⟨0⟩
def E5052B : AgSsaModel := ⟨1⟩
end AgSsaModel

structure CAgSsaOptions where
  Model : AgSsaModel := AgSsaModel.Common
  Simulate : Bool := false
  Reset : Bool := false
  idQuery : Bool := false
  deriving DecidableEq

/-- The data members of the class `CAgSsa`. -/
structure CAgSsa where
  m_Session : ViSession := 0
  m_Options : CAgSsaOptions := {}
  deriving DecidableEq

/-- Embedding of `CAgSsa::MakeOptionsString`: the string returned and the object
after the call (the options are stored in `m_Options`). -/
def MakeOptionsString (self : CAgSsa) (options : CAgSsaOptions) : String × CAgSsa :=
  let opts := "Simulate="
  let self := { self with m_Options := options }
  let opts := if options.Simulate then opts ++ "true" else opts ++ "false"
  let opts :=
    if options.Model ≠ AgSsaModel.Common then
      let opts := opts ++ ", DriverSetup=Model="
      if options.Model = AgSsaModel.E5052B then opts ++ "E5052B" else ""
    else opts
  (opts, self)

/-- Embedding of `CAgSsa::Close`; `closeStatus` is the status of `AgSsa_close`, which
the wrapper does not look at. -/
def Close (_closeStatus : ViStatus) (self : CAgSsa) : CAgSsa :=
  { self with m_Session := 0 }

/-- Embedding of `CAgSsa::IsOpen`. -/
def IsOpen (self : CAgSsa) : Bool := decide (self.m_Session ≠ 0)

/-- Embedding of `CAgSsa::IsSimulate`. -/
def IsSimulate (self : CAgSsa) : Bool := self.m_Options.Simulate

/-- Embedding of `CAgSsa::GetSession`. -/
def GetSession (self : CAgSsa) : ViSession := self.m_Session

/-- The indices at which the record loop of `QuerySpuriousList` (`parseLoop`)
subscripts `splittedString`, in the order of the subscripts: the loop goes no
further than the first subscript past the end and the first conversion that
throws. -/
def parseLoopIndices (stod : List Char → Option ViReal64)
    (splittedString : List (List Char)) : Nat → Nat → List Nat
  | fuel, idx =>
    if idx < splittedString.length then
      match fuel with
      | 0 => []
      | fuel + 1 =>
        idx :: match subscript splittedString idx >>= callStod stod with
          | .error _ => []
          | .ok _ =>
            (idx + 1) :: match subscript splittedString (idx + 1) >>= callStod stod with
              | .error _ => []
              | .ok _ =>
                (idx + 2) :: match subscript splittedString (idx + 2) >>= callStod stod with
                  | .error _ => []
                  | .ok _ => parseLoopIndices stod splittedString fuel (idx + spurParamsNum)
    else []

end AgSsa

namespace AgXSAn

/-- Embedding of `CAgXSAnSystem::WaitForOperationComplete`; `timeout` is
`timeout.count()`, `driver` is `AgXSAn_SystemWaitForOperationComplete` on the
session, as a function of the timeout it is passed. -/
def WaitForOperationComplete (driver : ViInt32 → ViStatus) (timeout : Int) : ViStatus :=
  driver (narrowToViInt32 timeout)

/-- An `enum class AgXSAnModel : ViUInt32`: any `ViUInt32` can be stored. -/
structure AgXSAnModel where
  val : Nat
  deriving DecidableEq

namespace AgXSAnModel
def Common : AgXSAnModel := ⟨0⟩
def N9030A : AgXSAnModel := ⟨1⟩
end AgXSAnModel

structure CAgXSAnOptions where
  Model : AgXSAnModel := AgXSAnModel.Common
  Simulate : Bool := false
  Reset : Bool := false
  idQuery : Bool := false
  deriving DecidableEq

/-- The data members of the class `CAgXSAn`. -/
structure CAgXSAn where
  m_Session : ViSession := 0
  m_Options : CAgXSAnOptions := {}
  deriving DecidableEq

/-- Embedding of `CAgXSAn::MakeOptionsString`: the string returned and the object
after the call (the options are stored in `m_Options`). -/
def MakeOptionsString (self : CAgXSAn) (options : CAgXSAnOptions) : String × CAgXSAn :=
  let opts := "Simulate="
  let self := { self with m_Options := options }
  let opts := if options.Simulate then opts ++ "true" else opts ++ "false"
  let opts :=
    if options.Model ≠ AgXSAnModel.Common then
      let opts := opts ++ ", DriverSetup=Model="
      if options.Model = AgXSAnModel.N9030A then opts ++ "N9030A" else ""
    else opts
  (opts, self)

/-- Embedding of `CAgXSAn::Close`; `closeStatus` is the status of `AgXSAn_close`,
which the wrapper does not look at. -/
def Close (_closeStatus : ViStatus) (self : CAgXSAn) : CAgXSAn :=
  { self with m_Session := 0 }

/-- Embedding of `CAgXSAn::IsOpen`. -/
def IsOpen (self : CAgXSAn) : Bool := decide (self.m_Session ≠ 0)

/-- Embedding of `CAgXSAn::IsSimulate`. -/
def IsSimulate (self : CAgXSAn) : Bool := self.m_Options.Simulate

/-- Embedding of `CAgXSAn::GetSession`. -/
def GetSession (self : CAgXSAn) : ViSession := self.m_Session

/-- What `AgXSAn_SASpuriousEmissionsRangeTableQuerySweepTime` leaves behind: its
status, the contents of the array it was passed, and `retBufSize`. -/
structure SweepTimeReply where
  status : ViStatus
  data : List ViReal64
  retBufSize : ViInt32

/-- The table form of `QuerySweepTime` with the driver's reply to the call: the
status returned and the contents of the caller's `table` after the call.  The
driver writes into `table.data()`. -/
def QuerySweepTimeResult (driver : RangeTableCall ViReal64 → SweepTimeReply)
    (table : List ViReal64) : Option (ViStatus × List ViReal64) :=
  match QuerySweepTime table with
  | none => none
  | some call =>
    let reply := driver call
    let table := reply.data
    some (reply.status, table)

/-- The argument-list form of `QuerySweepTime` with the driver's reply to the call:
the status returned and the values of the caller's arguments after the call.
The driver writes into `tmp.data()`, and `tmp` is a local of the function. -/
def QuerySweepTimeArgsResult (driver : RangeTableCall ViReal64 → SweepTimeReply)
    (args : List ViReal64) : Option (ViStatus × List ViReal64) :=
  match QuerySweepTimeArgs args with
  | none => none
  | some call =>
    let reply := driver call
    let _tmp := reply.data
    some (reply.status, args)

end AgXSAn

/-- A conversion that, as `std::stod` does, throws on the empty string, in which no
conversion can be performed; every other string is given the value 0. -/
def stod_throws_on_empty (field : List Char) : Option ViReal64 :=
  if field = [] then none else some 0

/-- A driver that answers `VI_SUCCESS`, reports two elements, and writes the
capacity it was told into each element of the receive buffer. -/
def carrierData_echo_capacity (capacity : ViInt32) : AgSsa.CarrierDataReply :=
  ⟨visa.VI_SUCCESS, fun _ => ofViInt32 capacity, 2⟩

/-- A conversion for one-character fields: a digit has the value `std::stod` gives
it; it is applied to fields of one digit only. -/
def stod_digit (field : List Char) : Option ViReal64 :=
  match field with
  | [c] => if c.isDigit then some (.finite ((c.toNat - 48 : Nat) : ℚ)) else none
  | _ => none

/-- The double 1.5. -/
def real_1_5 : ViReal64 := .finite ⟨3, 2, by decide, by decide⟩

/-- The double 100000.5. -/
def real_100000_5 : ViReal64 := .finite ⟨200001, 2, by decide, by decide⟩

/-! ## Status validation of the attribute queries -/

theorem toViInt32_ofViInt32 (n : ViInt32) (h : -2147483648 ≤ n ∧ n ≤ 2147483647) :
    toViInt32 (ofViInt32 n) = .ok n := by
  unfold toViInt32 ofViInt32
  simp only [Rat.num_intCast, Rat.den_intCast, Nat.cast_one, Int.tdiv_one]
  rw [if_pos h]

/-- C1, as stated, fails: with the raw value 1.5, which is none of 1, 10, 100,
1000, `QueryStartOffset` returns `VI_SUCCESS` and outputs `_1Hz`; with the raw value
100000.5, which is none of the stop offsets, `QueryStopOffset` returns `VI_SUCCESS`
and outputs `_100kHz`. -/
theorem QueryOffset_accepts_fractional_raw :
    (real_1_5 ∉ AgSsa.FrequencyStartOffset.rawValues ∧
      AgSsa.QueryStartOffset visa visa.VI_SUCCESS real_1_5 AgSsa.FrequencyStartOffset._1kHz
        = .ok (visa.VI_SUCCESS, AgSsa.FrequencyStartOffset._1Hz)) ∧
    (real_100000_5 ∉ AgSsa.FrequencyStopOffset.rawValues ∧
      AgSsa.QueryStopOffset visa visa.VI_SUCCESS real_100000_5 AgSsa.FrequencyStopOffset._1MHz
        = .ok (visa.VI_SUCCESS, AgSsa.FrequencyStopOffset._100kHz)) := by
  decide

/-- C1, amended: `QueryStartOffset` and `QueryStopOffset` return `VI_SUCCESS` exactly
when the driver's read returned `VI_SUCCESS` and the raw real value, converted to a
`ViInt32` (fractional part discarded), equals one of the enumerated offsets, in
which case the output is that enumerator; when the driver succeeded with a raw
value whose conversion is any other `ViInt32` they return `VI_ERROR_INV_RESPONSE`
and leave the output argument unchanged. -/
theorem QueryOffset_validates_truncated_raw (V : VisaCodes)
    (hne : V.VI_ERROR_INV_RESPONSE ≠ V.VI_SUCCESS) (status : ViStatus) (raw : ViReal64) :
    (∀ value out, AgSsa.QueryStartOffset V status raw value = .ok (V.VI_SUCCESS, out) ↔
        status = V.VI_SUCCESS ∧ out ∈ AgSsa.FrequencyStartOffset.enumerators ∧
          toViInt32 raw = .ok out.val) ∧
    (∀ value t, status = V.VI_SUCCESS → toViInt32 raw = .ok t →
        (⟨t⟩ : AgSsa.FrequencyStartOffset) ∉ AgSsa.FrequencyStartOffset.enumerators →
        AgSsa.QueryStartOffset V status raw value = .ok (V.VI_ERROR_INV_RESPONSE, value)) ∧
    (∀ value out, AgSsa.QueryStopOffset V status raw value = .ok (V.VI_SUCCESS, out) ↔
        status = V.VI_SUCCESS ∧ out ∈ AgSsa.FrequencyStopOffset.enumerators ∧
          toViInt32 raw = .ok out.val) ∧
    (∀ value t, status = V.VI_SUCCESS → toViInt32 raw = .ok t →
        (⟨t⟩ : AgSsa.FrequencyStopOffset) ∉ AgSsa.FrequencyStopOffset.enumerators →
        AgSsa.QueryStopOffset V status raw value = .ok (V.VI_ERROR_INV_RESPONSE, value)) := by
  refine ⟨?_, ?_, ?_, ?_⟩
  · intro value out
    unfold AgSsa.QueryStartOffset
    by_cases hs : status = V.VI_SUCCESS
    · cases hc : toViInt32 raw with
      | error e => simp [hs, bind, Except.bind]
      | ok t =>
        by_cases hm : (⟨t⟩ : AgSsa.FrequencyStartOffset) ∈ AgSsa.FrequencyStartOffset.enumerators
        · have hm' := hm
          simp only [AgSsa.FrequencyStartOffset.enumerators, List.mem_cons, List.mem_singleton,
            List.not_mem_nil, or_false] at hm'
          simp only [hs, bind, Except.bind, hm', if_true, pure, Except.pure, Except.ok.injEq,
            Prod.mk.injEq, true_and]
          constructor
          · rintro rfl; exact ⟨hm, rfl⟩
          · rintro ⟨_, h⟩; cases out; simp_all
        · have hm' := hm
          simp only [AgSsa.FrequencyStartOffset.enumerators, List.mem_cons, List.mem_singleton,
            List.not_mem_nil, or_false] at hm'
          simp only [hs, bind, Except.bind, hm', if_false, if_true, pure, Except.pure,
            Except.ok.injEq, Prod.mk.injEq, true_and]
          constructor
          · rintro ⟨h, _⟩; exact absurd h hne
          · rintro ⟨ho, h⟩; cases out; simp only [Except.ok.injEq] at h; subst h; exact absurd ho hm
    · simp only [hs, if_false, pure, Except.pure, Except.ok.injEq, Prod.mk.injEq, false_and,
        iff_false, not_and]
  · intro value t hs hc hm
    unfold AgSsa.QueryStartOffset
    simp only [AgSsa.FrequencyStartOffset.enumerators, List.mem_cons, List.mem_singleton,
      List.not_mem_nil, or_false] at hm
    simp [hs, hc, bind, Except.bind, hm, pure, Except.pure]
  · intro value out
    unfold AgSsa.QueryStopOffset
    by_cases hs : status = V.VI_SUCCESS
    · cases hc : toViInt32 raw with
      | error e => simp [hs, bind, Except.bind]
      | ok t =>
        by_cases hm : (⟨t⟩ : AgSsa.FrequencyStopOffset) ∈ AgSsa.FrequencyStopOffset.enumerators
        · have hm' := hm
          simp only [AgSsa.FrequencyStopOffset.enumerators, List.mem_cons, List.mem_singleton,
            List.not_mem_nil, or_false] at hm'
          simp only [hs, bind, Except.bind, hm', if_true, pure, Except.pure, Except.ok.injEq,
            Prod.mk.injEq, true_and]
          constructor
          · rintro rfl; exact ⟨hm, rfl⟩
          · rintro ⟨_, h⟩; cases out; simp_all
        · have hm' := hm
          simp only [AgSsa.FrequencyStopOffset.enumerators, List.mem_cons, List.mem_singleton,
            List.not_mem_nil, or_false] at hm'
          simp only [hs, bind, Except.bind, hm', if_false, if_true, pure, Except.pure,
            Except.ok.injEq, Prod.mk.injEq, true_and]
          constructor
          · rintro ⟨h, _⟩; exact absurd h hne
          · rintro ⟨ho, h⟩; cases out; simp only [Except.ok.injEq] at h; subst h; exact absurd ho hm
    · simp only [hs, if_false, pure, Except.pure, Except.ok.injEq, Prod.mk.injEq, false_and,
        iff_false, not_and]
  · intro value t hs hc hm
    unfold AgSsa.QueryStopOffset
    simp only [AgSsa.FrequencyStopOffset.enumerators, List.mem_cons, List.mem_singleton,
      List.not_mem_nil, or_false] at hm
    simp [hs, hc, bind, Except.bind, hm, pure, Except.pure]

/-- Witness of C1 (amended): the raw value 2 converts to the `ViInt32` 2, which is
no start offset, so the query answers `VI_ERROR_INV_RESPONSE` and keeps the
output. -/
theorem QueryOffset_validates_truncated_raw_witness :
    visa.VI_ERROR_INV_RESPONSE ≠ visa.VI_SUCCESS ∧
    AgSsa.QueryStartOffset visa visa.VI_SUCCESS 2 AgSsa.FrequencyStartOffset._10Hz
      = .ok (visa.VI_ERROR_INV_RESPONSE, AgSsa.FrequencyStartOffset._10Hz) :=
  ⟨by decide,
   (QueryOffset_validates_truncated_raw visa (by decide) visa.VI_SUCCESS 2).2.1
      AgSsa.FrequencyStartOffset._10Hz 2 rfl (by decide) (by decide)⟩

/-- C2: when the driver's read returns `VI_SUCCESS` with raw code `r`,
`QueryFrequencyBand` returns `VI_SUCCESS` and outputs the band of code `r` if `r` is
one of the eight declared codes, and otherwise returns `VI_ERROR_INV_RESPONSE` and
leaves the output unchanged. -/
theorem QueryFrequencyBand_validates_code (V : VisaCodes) (B : AgSsa.BandCodes)
    (r : ViInt32) (value : AgSsa.FrequencyBand) :
    AgSsa.QueryFrequencyBand V B V.VI_SUCCESS r value =
      if r ∈ AgSsa.FrequencyBand.codes B then (V.VI_SUCCESS, ⟨r⟩)
      else (V.VI_ERROR_INV_RESPONSE, value) := by
  have key : (r ∈ AgSsa.FrequencyBand.codes B) ↔
      ((⟨r⟩ : AgSsa.FrequencyBand) = AgSsa.FrequencyBand.BAND1 B ∨
        (⟨r⟩ : AgSsa.FrequencyBand) = AgSsa.FrequencyBand.BAND2 B ∨
        (⟨r⟩ : AgSsa.FrequencyBand) = AgSsa.FrequencyBand.BAND3 B ∨
        (⟨r⟩ : AgSsa.FrequencyBand) = AgSsa.FrequencyBand.BAND4 B ∨
        (⟨r⟩ : AgSsa.FrequencyBand) = AgSsa.FrequencyBand.BAND5 B ∨
        (⟨r⟩ : AgSsa.FrequencyBand) = AgSsa.FrequencyBand.BAND6 B ∨
        (⟨r⟩ : AgSsa.FrequencyBand) = AgSsa.FrequencyBand.BAND_LOW B ∨
        (⟨r⟩ : AgSsa.FrequencyBand) = AgSsa.FrequencyBand.BAND_HIGH B) := by
    simp [AgSsa.FrequencyBand.codes, AgSsa.FrequencyBand.enumerators,
      AgSsa.FrequencyBand.BAND1, AgSsa.FrequencyBand.BAND2, AgSsa.FrequencyBand.BAND3,
      AgSsa.FrequencyBand.BAND4, AgSsa.FrequencyBand.BAND5, AgSsa.FrequencyBand.BAND6,
      AgSsa.FrequencyBand.BAND_LOW, AgSsa.FrequencyBand.BAND_HIGH]
  unfold AgSsa.QueryFrequencyBand
  by_cases h : r ∈ AgSsa.FrequencyBand.codes B
  · rw [if_pos rfl, if_pos h]
    exact if_pos (key.mp h)
  · rw [if_pos rfl, if_neg h]
    exact if_neg (fun hc => h (key.mpr hc))

/-- C7, as stated, fails: the driver answers `VI_SUCCESS`, writes 5 to both elements
of the receive buffer and reports one element; `QueryCarrierData` returns
`VI_SUCCESS` and the output argument still holds its old contents. -/
theorem QueryCarrierData_success_without_output :
    AgSsa.QueryCarrierData visa (fun _ => ⟨visa.VI_SUCCESS, fun _ => 5, 1⟩) ⟨0, 0⟩
      = (visa.VI_SUCCESS, ⟨0, 0⟩) ∧
    (⟨0, 0⟩ : AgSsa.CCarrierData) ≠ ⟨5, 5⟩ := by
  decide

/-- C7, amended: whenever `QueryCarrierData` returns `VI_SUCCESS` and the driver
reported a returned element count of 2, its output argument has been set to the
carrier `Frequency` and `Power` the driver returned (first and second element of
the receive buffer, in that order). -/
theorem QueryCarrierData_output_on_success (V : VisaCodes)
    (Get_CarrierData : ViInt32 → AgSsa.CarrierDataReply) (data : AgSsa.CCarrierData)
    (hret : (AgSsa.QueryCarrierData V Get_CarrierData data).1 = V.VI_SUCCESS)
    (hsize : (Get_CarrierData AgSsa.sizeofCCarrierData).retSize = 2) :
    (AgSsa.QueryCarrierData V Get_CarrierData data).2 =
      ⟨(Get_CarrierData AgSsa.sizeofCCarrierData).buf 0,
       (Get_CarrierData AgSsa.sizeofCCarrierData).buf 1⟩ := by
  unfold AgSsa.QueryCarrierData at hret ⊢
  have hst : (Get_CarrierData AgSsa.sizeofCCarrierData).status = V.VI_SUCCESS := by
    simp only at hret
    split at hret <;> exact hret
  have h2 : (((AgSsa.sizeofCCarrierData / AgSsa.sizeofViReal64 : Nat) : Int)) = 2 := by decide
  simp only [hst, hsize, h2, and_self, if_true]

/-- Witness of C7 (amended): the driver answers `VI_SUCCESS` with two elements 3
and 4. -/
theorem QueryCarrierData_output_on_success_witness :
    (AgSsa.QueryCarrierData visa (fun _ => ⟨visa.VI_SUCCESS, fun i => .finite i, 2⟩) ⟨7, 7⟩).2
      = ⟨.finite ((0 : Nat) : ℚ), .finite ((1 : Nat) : ℚ)⟩ :=
  QueryCarrierData_output_on_success visa (fun _ => ⟨visa.VI_SUCCESS, fun i => .finite i, 2⟩)
    ⟨7, 7⟩ (by decide) (by decide)

/-- C8: for `QueryCorrelation`, `QueryFrequencyBand`, `QueryStartOffset`,
`QueryStopOffset` and `GetSpuriousResults` (`ReadSpuriousResults`,
`FetchSpuriousResults`): when the driver call returns a status other than
`VI_SUCCESS`, the operation returns exactly that status and leaves its output
argument unchanged. -/
theorem driver_failure_is_forwarded (V : VisaCodes) (B : AgSsa.BandCodes) (status : ViStatus)
    (hfail : status ≠ V.VI_SUCCESS) :
    (∀ correlation value, AgSsa.QueryCorrelation V status correlation value = (status, value)) ∧
    (∀ rawBand value, AgSsa.QueryFrequencyBand V B status rawBand value = (status, value)) ∧
    (∀ raw value, AgSsa.QueryStartOffset V status raw value = .ok (status, value)) ∧
    (∀ raw value, AgSsa.QueryStopOffset V status raw value = .ok (status, value)) ∧
    (∀ functor spursData, (functor (AgXSAn.queryBufSize : Int)).status = status →
      AgXSAn.GetSpuriousResults V functor spursData = .ok (status, spursData) ∧
      AgXSAn.ReadSpuriousResults V functor spursData = .ok (status, spursData) ∧
      AgXSAn.FetchSpuriousResults V functor spursData = .ok (status, spursData)) := by
  refine ⟨?_, ?_, ?_, ?_, ?_⟩
  · intro correlation value
    simp [AgSsa.QueryCorrelation, hfail]
  · intro rawBand value
    simp [AgSsa.QueryFrequencyBand, hfail]
  · intro raw value
    simp [AgSsa.QueryStartOffset, hfail, pure, Except.pure]
  · intro raw value
    simp [AgSsa.QueryStopOffset, hfail, pure, Except.pure]
  · intro functor spursData hst
    have hg : AgXSAn.GetSpuriousResults V functor spursData = .ok (status, spursData) := by
      simp [AgXSAn.GetSpuriousResults, hst, hfail, pure, Except.pure]
    exact ⟨hg, hg, hg⟩

/-- Witness of C8: the driver answers with the status -1. -/
theorem driver_failure_is_forwarded_witness :
    (-1 : ViStatus) ≠ visa.VI_SUCCESS ∧
    AgSsa.QueryStartOffset visa (-1) real_1_5 AgSsa.FrequencyStartOffset._10Hz
      = .ok (-1, AgSsa.FrequencyStartOffset._10Hz) :=
  ⟨by decide,
   (driver_failure_is_forwarded visa ⟨1, 2, 3, 4, 5, 6, 7, 8⟩ (-1) (by decide)).2.2.1
      real_1_5 AgSsa.FrequencyStartOffset._10Hz⟩

/-! ## Range-table sizes -/

theorem tableForm_eq {α : Type} (entry : AgXSAn.RangeTableEntry) (table : List α) :
    AgXSAn.tableForm entry table =
      if 1 ≤ table.length ∧ table.length ≤ 20 then some ⟨entry, table.length, table⟩
      else none := by
  unfold AgXSAn.tableForm AgXSAn.staticAssertRangeTable AgXSAn.RangeTableMax
  by_cases h : 1 ≤ table.length ∧ table.length ≤ 20
  · have h1 : ((table.length : Int) ≤ 20) := by omega
    have h2 : ((table.length : Int) > 0) := by omega
    simp [h, h1, h2]
  · have h3 : ¬ (((table.length : Int) ≤ 20) ∧ ((table.length : Int) > 0)) := by omega
    simp only [Bool.and_eq_true, decide_eq_true_eq, h3, h, if_false]

theorem argsForm_eq {α : Type} (entry : AgXSAn.RangeTableEntry) (args : List α) :
    AgXSAn.argsForm entry args =
      if 1 ≤ args.length ∧ args.length ≤ 20 then some ⟨entry, args.length, args⟩
      else none := by
  unfold AgXSAn.argsForm AgXSAn.staticAssertArgsSize AgXSAn.RangeTableMax
  by_cases h : 1 ≤ args.length ∧ args.length ≤ 20
  · have h1 : ((args.length : Int) ≤ 20) := by omega
    have h2 : (args.length > 0) := by omega
    simp [h, h1, h2]
  · have h3 : ¬ (((args.length : Int) ≤ 20) ∧ (args.length > 0)) := by omega
    simp only [Bool.and_eq_true, decide_eq_true_eq, h3, h, if_false]

theorem boundedCall_of_eq {α : Type} (op : List α → Option (AgXSAn.RangeTableCall α))
    (entry : AgXSAn.RangeTableEntry) (table : List α)
    (h : op table = if 1 ≤ table.length ∧ table.length ≤ 20
      then some ⟨entry, table.length, table⟩ else none) :
    AgXSAn.BoundedCall op table := by
  unfold AgXSAn.BoundedCall AgXSAn.RangeTableMax
  rw [h]
  by_cases hb : 1 ≤ table.length ∧ table.length ≤ 20
  · rw [if_pos hb]
    refine ⟨by simp; omega, ?_⟩
    intro call hc
    cases hc
    exact ⟨rfl, rfl⟩
  · rw [if_neg hb]
    refine ⟨by simp; omega, ?_⟩
    intro call hc
    cases hc

/-- C6: every range-table operation, in the table and in the argument-list form,
is admitted only for a table of between 1 and `RangeTableMax` = 20 entries, and the
element count it passes to the driver is the number of entries of the table it
passes. -/
theorem rangeTable_operations_bounded :
    AgXSAn.RangeTableMax = 20 ∧
    (∀ op ∈ AgXSAn.realOperations, ∀ table, AgXSAn.BoundedCall op table) ∧
    (∀ op ∈ AgXSAn.booleanOperations, ∀ table, AgXSAn.BoundedCall op table) := by
  refine ⟨rfl, ?_, ?_⟩
  · intro op hop table
    simp only [AgXSAn.realOperations, List.mem_cons, List.mem_singleton, List.not_mem_nil,
      or_false] at hop
    rcases hop with h | h | h | h | h | h | h | h | h | h | h | h | h | h | h | h <;> subst h
    · exact boundedCall_of_eq _ _ _ (tableForm_eq _ _)
    · exact boundedCall_of_eq _ _ _ (argsForm_eq _ _)
    · exact boundedCall_of_eq _ _ _ (tableForm_eq _ _)
    · exact boundedCall_of_eq _ _ _ (argsForm_eq _ _)
    · exact boundedCall_of_eq _ _ _ (tableForm_eq _ _)
    · exact boundedCall_of_eq _ _ _ (argsForm_eq _ _)
    · exact boundedCall_of_eq _ _ _ (tableForm_eq _ _)
    · exact boundedCall_of_eq _ _ _ (argsForm_eq _ _)
    · exact boundedCall_of_eq _ _ _ (tableForm_eq _ _)
    · exact boundedCall_of_eq _ _ _ (argsForm_eq _ _)
    · exact boundedCall_of_eq _ _ _ (tableForm_eq _ _)
    · exact boundedCall_of_eq _ _ _ (argsForm_eq _ _)
    · exact boundedCall_of_eq _ _ _ (tableForm_eq _ _)
    · exact boundedCall_of_eq _ _ _ (argsForm_eq _ _)
    · exact boundedCall_of_eq _ _ _ (tableForm_eq _ _)
    · exact boundedCall_of_eq _ _ _ (argsForm_eq _ _)
  · intro op hop table
    simp only [AgXSAn.booleanOperations, List.mem_cons, List.mem_singleton, List.not_mem_nil,
      or_false] at hop
    rcases hop with h | h | h | h | h | h <;> subst h
    · exact boundedCall_of_eq _ _ _ (tableForm_eq _ _)
    · exact boundedCall_of_eq _ _ _ (argsForm_eq _ _)
    · exact boundedCall_of_eq _ _ _ (tableForm_eq _ _)
    · exact boundedCall_of_eq _ _ _ (argsForm_eq _ _)
    · exact boundedCall_of_eq _ _ _ (tableForm_eq _ _)
    · exact boundedCall_of_eq _ _ _ (argsForm_eq _ _)

/-! ## Repackaging of the spurious-emission buffer -/

theorem spurParamsNum_eq : AgXSAn.spurParamsNum = 6 := by decide

theorem queryBufSize_eq : AgXSAn.queryBufSize = 1536 := by decide

theorem readBuf_ok (buf : Nat → ViReal64) (i : Nat) (h : i < 1536) :
    AgXSAn.readBuf buf i = .ok (buf i) := by
  unfold AgXSAn.readBuf
  rw [queryBufSize_eq, if_pos h]

theorem readBuf_outOfBounds (buf : Nat → ViReal64) (i : Nat) (h : 1536 ≤ i) :
    AgXSAn.readBuf buf i = .error .outOfBounds := by
  unfold AgXSAn.readBuf
  rw [queryBufSize_eq, if_neg (by omega)]

theorem readSpur_ok (buf : Nat → ViReal64) (idx : Nat) (h : idx ≤ 254) :
    AgXSAn.readSpur buf idx = .ok (AgXSAn.recordAt buf idx) := by
  unfold AgXSAn.readSpur AgXSAn.recordAt
  rw [spurParamsNum_eq]
  rw [readBuf_ok buf _ (by omega : 1 + 6 * idx + 0 < 1536),
    readBuf_ok buf _ (by omega : 1 + 6 * idx + 1 < 1536),
    readBuf_ok buf _ (by omega : 1 + 6 * idx + 2 < 1536),
    readBuf_ok buf _ (by omega : 1 + 6 * idx + 3 < 1536),
    readBuf_ok buf _ (by omega : 1 + 6 * idx + 4 < 1536),
    readBuf_ok buf _ (by omega : 1 + 6 * idx + 5 < 1536)]
  rfl

theorem readSpur_last_outOfBounds (buf : Nat → ViReal64) :
    AgXSAn.readSpur buf 255 = .error .outOfBounds := by
  unfold AgXSAn.readSpur
  rw [spurParamsNum_eq]
  rw [readBuf_ok buf _ (by omega : 1 + 6 * 255 + 0 < 1536),
    readBuf_ok buf _ (by omega : 1 + 6 * 255 + 1 < 1536),
    readBuf_ok buf _ (by omega : 1 + 6 * 255 + 2 < 1536),
    readBuf_ok buf _ (by omega : 1 + 6 * 255 + 3 < 1536),
    readBuf_ok buf _ (by omega : 1 + 6 * 255 + 4 < 1536),
    readBuf_outOfBounds buf _ (by omega : 1536 ≤ 1 + 6 * 255 + 5)]
  rfl

theorem spursLoop_ok (buf : Nat → ViReal64) :
    ∀ (left idx : Nat) (spursData : AgXSAn.CSpursData), idx + left ≤ 255 →
      AgXSAn.spursLoop buf left idx spursData =
        .ok (spursData ++ (List.range' idx left).map (AgXSAn.recordAt buf)) := by
  intro left
  induction left with
  | zero => intro idx spursData _; simp [AgXSAn.spursLoop]
  | succ left ih =>
    intro idx spursData h
    unfold AgXSAn.spursLoop
    rw [readSpur_ok buf idx (by omega)]
    show AgXSAn.spursLoop buf left (idx + 1) (spursData ++ [AgXSAn.recordAt buf idx]) = _
    rw [ih (idx + 1) _ (by omega)]
    simp [List.range'_succ]

theorem spursLoop_outOfBounds (buf : Nat → ViReal64) :
    ∀ (left idx : Nat) (spursData : AgXSAn.CSpursData), idx ≤ 255 → 256 ≤ idx + left →
      AgXSAn.spursLoop buf left idx spursData = .error .outOfBounds := by
  intro left
  induction left with
  | zero => intro idx spursData h1 h2; omega
  | succ left ih =>
    intro idx spursData h1 h2
    unfold AgXSAn.spursLoop
    by_cases h : idx = 255
    · subst h
      rw [readSpur_last_outOfBounds]
      rfl
    · rw [readSpur_ok buf idx (by omega)]
      show AgXSAn.spursLoop buf left (idx + 1) (spursData ++ [AgXSAn.recordAt buf idx]) = _
      exact ih (idx + 1) _ (by omega) (by omega)

theorem tdiv_spurParamsNum (n : Int) (h : 0 ≤ n) :
    Int.tdiv n (AgXSAn.spurParamsNum : Int) = ((n.toNat / 6 : Nat) : Int) := by
  rw [spurParamsNum_eq]
  obtain ⟨m, rfl⟩ := Int.eq_ofNat_of_zero_le h
  rw [Int.toNat_ofNat]
  exact (Int.ofNat_tdiv m 6).symm

/-- The record layout for the counts below the announced capacity: when the driver
call returns `VI_SUCCESS` with a returned element count `n`, `0 ≤ n ≤ 1535`,
`GetSpuriousResults` appends exactly `n / 6` records after the existing contents of
`spursData`, and record `i` is `recordAt buf i`. -/
theorem GetSpuriousResults_layout (V : VisaCodes) (functor : ViInt32 → AgXSAn.TraceReply)
    (spursData : AgXSAn.CSpursData)
    (hst : (functor (AgXSAn.queryBufSize : Int)).status = V.VI_SUCCESS)
    (h0 : 0 ≤ (functor (AgXSAn.queryBufSize : Int)).retBufSize)
    (h1 : (functor (AgXSAn.queryBufSize : Int)).retBufSize ≤ 1535) :
    AgXSAn.GetSpuriousResults V functor spursData =
      .ok (V.VI_SUCCESS, spursData ++
        (List.range ((functor (AgXSAn.queryBufSize : Int)).retBufSize.toNat / 6)).map
          (AgXSAn.recordAt (functor (AgXSAn.queryBufSize : Int)).buf)) := by
  unfold AgXSAn.GetSpuriousResults
  simp only [hst, if_true]
  rw [tdiv_spurParamsNum _ h0]
  have hneg : ¬ ((((functor (AgXSAn.queryBufSize : Int)).retBufSize.toNat / 6 : Nat) : Int) < 0) := by
    omega
  have hle : 0 + (functor (AgXSAn.queryBufSize : Int)).retBufSize.toNat / 6 ≤ 255 := by
    have h2 := Int.toNat_of_nonneg h0
    have h3 : @LE.le Int _ (functor (AgXSAn.queryBufSize : Int)).retBufSize 1535 := h1
    omega
  rw [if_neg hneg, Int.toNat_ofNat]
  rw [spursLoop_ok _ _ _ _ hle, List.range_eq_range']
  rfl

theorem GetSpuriousResults_outOfBounds (V : VisaCodes) (functor : ViInt32 → AgXSAn.TraceReply)
    (spursData : AgXSAn.CSpursData)
    (hst : (functor (AgXSAn.queryBufSize : Int)).status = V.VI_SUCCESS)
    (h1 : 1536 ≤ (functor (AgXSAn.queryBufSize : Int)).retBufSize) :
    AgXSAn.GetSpuriousResults V functor spursData = .error .outOfBounds := by
  have h1' : @LE.le Int _ 1536 (functor (AgXSAn.queryBufSize : Int)).retBufSize := h1
  have h0 : @LE.le Int _ 0 (functor (AgXSAn.queryBufSize : Int)).retBufSize := by omega
  unfold AgXSAn.GetSpuriousResults
  simp only [hst, if_true]
  rw [tdiv_spurParamsNum _ h0]
  have hneg : ¬ ((((functor (AgXSAn.queryBufSize : Int)).retBufSize.toNat / 6 : Nat) : Int) < 0) := by
    omega
  have hge : 256 ≤ 0 + (functor (AgXSAn.queryBufSize : Int)).retBufSize.toNat / 6 := by
    have h2 := Int.toNat_of_nonneg h0
    omega
  rw [if_neg hneg, Int.toNat_ofNat]
  rw [spursLoop_outOfBounds _ _ 0 _ (by omega) hge]
  rfl

/-- C4 fails at the returned element count 1536, the capacity announced to the
driver: whatever the buffer holds, the last of the 256 records needs the element
of index 1536, which the 1536-element buffer does not have. -/
theorem GetSpuriousResults_full_buffer_outOfBounds (V : VisaCodes) (buf : Nat → ViReal64)
    (spursData : AgXSAn.CSpursData) :
    AgXSAn.GetSpuriousResults V (fun _ => ⟨V.VI_SUCCESS, buf, 1536⟩) spursData
      = .error .outOfBounds :=
  GetSpuriousResults_outOfBounds V (fun _ => ⟨V.VI_SUCCESS, buf, 1536⟩) spursData rfl
    (Int.le_refl 1536)

theorem mem_readIndices (n : Int) (h0 : 0 ≤ n) (i : Nat) :
    i ∈ AgXSAn.readIndices n ↔ ∃ idx j, idx < n.toNat / 6 ∧ j < 6 ∧ i = 1 + 6 * idx + j := by
  unfold AgXSAn.readIndices AgXSAn.spurIndices
  rw [tdiv_spurParamsNum _ h0, Int.toNat_ofNat, spurParamsNum_eq]
  simp only [List.mem_flatMap, List.mem_range, List.mem_map]
  constructor
  · rintro ⟨idx, h1, j, h2, rfl⟩; exact ⟨idx, j, h1, h2, rfl⟩
  · rintro ⟨idx, j, h1, h2, rfl⟩; exact ⟨idx, h1, j, h2, rfl⟩

/-- For every returned element count `n` with `0 ≤ n ≤ 1535`, every index read is
inside the buffer. -/
theorem readIndices_inside_below_capacity (n : Int) (h0 : 0 ≤ n) (h1 : n ≤ 1535) :
    ∀ i ∈ AgXSAn.readIndices n, i < AgXSAn.queryBufSize := by
  intro i hi
  rw [mem_readIndices n h0] at hi
  obtain ⟨idx, j, h2, h3, rfl⟩ := hi
  rw [queryBufSize_eq]
  omega

/-- The indices `readIndices` are those of the code: on a successful driver call
with a count `n ≥ 0`, `GetSpuriousResults` returns exactly when each of them is
inside the buffer. -/
theorem GetSpuriousResults_returns_iff (V : VisaCodes) (functor : ViInt32 → AgXSAn.TraceReply)
    (spursData : AgXSAn.CSpursData)
    (hst : (functor (AgXSAn.queryBufSize : Int)).status = V.VI_SUCCESS)
    (h0 : 0 ≤ (functor (AgXSAn.queryBufSize : Int)).retBufSize) :
    (∃ r, AgXSAn.GetSpuriousResults V functor spursData = .ok r) ↔
      ∀ i ∈ AgXSAn.readIndices (functor (AgXSAn.queryBufSize : Int)).retBufSize,
        i < AgXSAn.queryBufSize := by
  have h0' : @LE.le Int _ 0 (functor (AgXSAn.queryBufSize : Int)).retBufSize := h0
  by_cases h1 : @LE.le Int _ (functor (AgXSAn.queryBufSize : Int)).retBufSize 1535
  · constructor
    · intro _
      exact readIndices_inside_below_capacity _ h0 h1
    · intro _
      exact ⟨_, GetSpuriousResults_layout V functor spursData hst h0 h1⟩
  · have h2 : @LE.le Int _ 1536 (functor (AgXSAn.queryBufSize : Int)).retBufSize := by omega
    constructor
    · rintro ⟨r, hr⟩
      rw [GetSpuriousResults_outOfBounds V functor spursData hst h2] at hr
      cases hr
    · intro hall
      have hm : 1536 ∈ AgXSAn.readIndices (functor (AgXSAn.queryBufSize : Int)).retBufSize := by
        rw [mem_readIndices _ h0]
        have h3 := Int.toNat_of_nonneg h0
        exact ⟨255, 5, by omega, by decide, by decide⟩
      have := hall 1536 hm
      rw [queryBufSize_eq] at this
      omega

/-- C5 fails at the returned element count 1536, which is the capacity announced
to the driver: the index 1536, outside the 1536-element buffer, is read. -/
theorem readIndices_full_buffer_outside :
    (1536 : Int) ≤ (AgXSAn.queryBufSize : Int) ∧
    1536 ∈ AgXSAn.readIndices 1536 ∧ ¬ (1536 < AgXSAn.queryBufSize) := by
  refine ⟨by decide, ?_, by decide⟩
  rw [mem_readIndices 1536 (by omega)]
  exact ⟨255, 5, by decide, by decide, by decide⟩

/-! ## Splitting the response string -/

theorem find_none_not_infix (separator : List Char) (hsep : separator ≠ []) :
    ∀ s : List Char, AgSsa.find s separator = none → ¬ separator <:+: s := by
  intro s
  induction s with
  | nil =>
    intro _ hinf
    exact hsep (List.eq_nil_of_infix_nil hinf)
  | cons c s ih =>
    intro hfind hinf
    unfold AgSsa.find at hfind
    by_cases hp : separator.isPrefixOf (c :: s) = true
    · rw [if_pos hp] at hfind
      cases hfind
    · rw [if_neg hp] at hfind
      rcases List.infix_cons_iff.mp hinf with h | h
      · exact hp (List.isPrefixOf_iff_prefix.mpr h)
      · cases hf : AgSsa.find s separator with
        | none => exact ih hf h
        | some i => rw [hf] at hfind; cases hfind

theorem find_some_spec (separator : List Char) (hsep : separator ≠ []) :
    ∀ (s : List Char) (i : Nat), AgSsa.find s separator = some i →
      separator <+: s.drop i ∧ ¬ separator <:+: s.take i := by
  intro s
  induction s with
  | nil =>
    intro i hfind
    unfold AgSsa.find at hfind
    by_cases hp : separator.isPrefixOf [] = true
    · exact absurd (List.prefix_nil.mp (List.isPrefixOf_iff_prefix.mp hp)) hsep
    · rw [if_neg hp] at hfind
      cases hfind
  | cons c s ih =>
    intro i hfind
    unfold AgSsa.find at hfind
    by_cases hp : separator.isPrefixOf (c :: s) = true
    · rw [if_pos hp] at hfind
      cases hfind
      refine ⟨List.isPrefixOf_iff_prefix.mp hp, ?_⟩
      intro hinf
      exact hsep (List.eq_nil_of_infix_nil hinf)
    · rw [if_neg hp] at hfind
      cases hf : AgSsa.find s separator with
      | none => rw [hf] at hfind; cases hfind
      | some k =>
        rw [hf] at hfind
        cases hfind
        obtain ⟨h1, h2⟩ := ih k hf
        refine ⟨h1, ?_⟩
        intro hinf
        rw [List.take_succ_cons] at hinf
        rcases List.infix_cons_iff.mp hinf with h | h
        · apply hp
          apply List.isPrefixOf_iff_prefix.mpr
          exact h.trans ((List.prefix_cons_inj c).mpr (List.take_prefix k s))
        · exact h2 h

theorem find_some_bound (separator : List Char) (hsep : separator ≠ [])
    (s : List Char) (i : Nat) (h : AgSsa.find s separator = some i) :
    i + separator.length ≤ s.length := by
  obtain ⟨⟨t, ht⟩, _⟩ := find_some_spec separator hsep s i h
  have hl := congrArg List.length ht
  rw [List.length_append, List.length_drop] at hl
  have : 0 < separator.length := List.length_pos.mpr hsep
  omega

theorem intercalate_cons_of_ne_nil (separator piece : List Char) (pieces : List (List Char))
    (h : pieces ≠ []) :
    separator.intercalate (piece :: pieces) = piece ++ separator ++ separator.intercalate pieces := by
  cases pieces with
  | nil => exact absurd rfl h
  | cons q qs =>
    simp [List.intercalate, List.intersperse_cons_cons, List.flatten_cons]

theorem splitLoop_spec (unsplitted separator : List Char) (hsep : separator ≠ []) :
    ∀ (fuel : Nat) (splitted : List (List Char)) (start : Nat),
      start ≤ unsplitted.length → unsplitted.length - start < fuel →
      ∃ pieces, AgSsa.splitLoop unsplitted separator fuel splitted start
          (AgSsa.find (unsplitted.drop start) separator) = .ok (splitted ++ pieces) ∧
        pieces ≠ [] ∧ (∀ p ∈ pieces, ¬ separator <:+: p) ∧
        separator.intercalate pieces = unsplitted.drop start := by
  intro fuel
  induction fuel with
  | zero => intro _ _ _ h; omega
  | succ fuel ih =>
    intro splitted start hstart hfuel
    cases hf : AgSsa.find (unsplitted.drop start) separator with
    | none =>
      refine ⟨[unsplitted.drop start], ?_, by simp, ?_, by simp [List.intercalate]⟩
      · simp [AgSsa.splitLoop, AgSsa.substrFrom, hstart, bind, Except.bind, pure, Except.pure]
      · intro p hp
        rw [List.mem_singleton] at hp
        subst hp
        exact find_none_not_infix separator hsep _ hf
    | some i =>
      obtain ⟨hpre, hnot⟩ := find_some_spec separator hsep _ i hf
      have hb := find_some_bound separator hsep _ i hf
      rw [List.length_drop] at hb
      have hpos : 0 < separator.length := List.length_pos.mpr hsep
      have hstart2 : start + (i + separator.length) ≤ unsplitted.length := by omega
      obtain ⟨pieces, h1, h2, h3, h4⟩ :=
        ih (splitted ++ [(unsplitted.drop start).take i]) (start + (i + separator.length))
          hstart2 (by omega)
      refine ⟨(unsplitted.drop start).take i :: pieces, ?_, by simp, ?_, ?_⟩
      · simp only [AgSsa.splitLoop, AgSsa.substr, AgSsa.substrFrom, hstart, hstart2, if_true,
          bind, Except.bind]
        rw [h1]
        simp
      · intro p hp
        rcases List.mem_cons.mp hp with h | h
        · subst h; exact hnot
        · exact h3 p h
      · rw [intercalate_cons_of_ne_nil _ _ _ h2, h4]
        obtain ⟨t, ht⟩ := hpre
        have hd : List.drop (start + (i + separator.length)) unsplitted = t := by
          rw [← List.drop_drop, ← List.drop_drop, ← ht]
          simp
        rw [hd, List.append_assoc, ht, List.take_append_drop]

theorem singleton_infix_iff_mem (c : Char) (p : List Char) : [c] <:+: p ↔ c ∈ p := by
  constructor
  · rintro ⟨a, b, rfl⟩
    simp
  · intro h
    obtain ⟨a, b, rfl⟩ := List.append_of_mem h
    exact ⟨a, b, by simp⟩

theorem count_intercalate_singleton (c : Char) :
    ∀ pieces : List (List Char), pieces ≠ [] → (∀ p ∈ pieces, c ∉ p) →
      ([c].intercalate pieces).count c + 1 = pieces.length := by
  intro pieces
  induction pieces with
  | nil => intro h; exact absurd rfl h
  | cons p ps ih =>
    intro _ hno
    have hp : p.count c = 0 := List.count_eq_zero_of_not_mem (hno p (List.mem_cons_self _ _))
    by_cases hps : ps = []
    · subst hps
      simp [List.intercalate, hp]
    · rw [intercalate_cons_of_ne_nil _ _ _ hps]
      have := ih hps (fun q hq => hno q (List.mem_cons_of_mem _ hq))
      simp only [List.count_append, hp, List.count_singleton_self, List.length_cons]
      omega

theorem splitSeparatedString_spec (s separator : List Char) (hsep : separator ≠ []) :
    ∃ pieces, AgSsa.splitSeparatedString s separator = .ok pieces ∧ pieces ≠ [] ∧
      (∀ p ∈ pieces, ¬ separator <:+: p) ∧ separator.intercalate pieces = s := by
  obtain ⟨pieces, h1, h2, h3, h4⟩ :=
    splitLoop_spec s separator hsep (s.length + 1) [] 0 (Nat.zero_le _) (by omega)
  rw [List.drop_zero] at h1 h4
  rw [List.nil_append] at h1
  exact ⟨pieces, h1, h2, h3, h4⟩

/-- C9: for every string `s` and every non-empty separator, `splitSeparatedString`
returns a non-empty list of pieces, none of which contains the separator as a
substring, and joining the pieces with the separator between consecutive pieces
gives back `s`; for the separator "," the number of pieces is the number of
commas in `s` plus one. -/
theorem splitSeparatedString_pieces (s separator : List Char) (hsep : separator ≠ []) :
    ∃ pieces, AgSsa.splitSeparatedString s separator = .ok pieces ∧ pieces ≠ [] ∧
      (∀ p ∈ pieces, ¬ separator <:+: p) ∧ separator.intercalate pieces = s ∧
      (separator = [','] → pieces.length = s.count ',' + 1) := by
  obtain ⟨pieces, h1, h2, h3, h4⟩ := splitSeparatedString_spec s separator hsep
  refine ⟨pieces, h1, h2, h3, h4, ?_⟩
  intro hc
  subst hc
  have := count_intercalate_singleton ',' pieces h2
    (fun p hp hm => h3 p hp ((singleton_infix_iff_mem ',' p).mpr hm))
  rw [h4] at this
  omega

/-- Witness of C9: the string "ab--cd-e--" and the separator "--". -/
theorem splitSeparatedString_pieces_witness :
    "--".toList ≠ [] ∧
    ∃ pieces, AgSsa.splitSeparatedString "ab--cd-e--".toList "--".toList = .ok pieces ∧
      pieces ≠ [] ∧ (∀ p ∈ pieces, ¬ "--".toList <:+: p) ∧
      "--".toList.intercalate pieces = "ab--cd-e--".toList ∧
      ("--".toList = [','] → pieces.length = "ab--cd-e--".toList.count ',' + 1) :=
  ⟨by decide, splitSeparatedString_pieces "ab--cd-e--".toList "--".toList (by decide)⟩

/-! ## Parsing the response string into records -/

theorem splitSeparatedString_comma_fields (fields : List (List Char)) (hne : fields ≠ [])
    (hcomma : ∀ f ∈ fields, ',' ∉ f) :
    AgSsa.splitSeparatedString ([','].intercalate fields) [','] = .ok fields := by
  obtain ⟨pieces, h1, h2, h3, h4⟩ :=
    splitSeparatedString_spec ([','].intercalate fields) [','] (by simp)
  have hp : ∀ p ∈ pieces, ',' ∉ p :=
    fun p hp hm => h3 p hp ((singleton_infix_iff_mem ',' p).mpr hm)
  have e1 := List.splitOn_intercalate pieces ',' hp h2
  have e2 := List.splitOn_intercalate fields ',' hcomma hne
  rw [h4, e2] at e1
  rw [h1, e1]

theorem subscript_eq_ok (v : List (List Char)) (idx : Nat) (h : idx < v.length) :
    AgSsa.subscript v idx = .ok v[idx] := by
  unfold AgSsa.subscript
  rw [List.getElem?_eq_getElem h]

theorem parseLoop_spec (stod : List Char → Option ViReal64) (fields : List (List Char))
    (values : Nat → ViReal64)
    (hnum : ∀ i f, fields[i]? = some f → stod f = some (values i)) :
    ∀ (m fuel j : Nat) (spursData : AgSsa.CSpursData),
      fields.length = 3 * (j + m) → m ≤ fuel →
      AgSsa.parseLoop stod fields fuel (3 * j) spursData =
        .ok (spursData ++ (List.range' j m).map
          (fun i => ⟨values (3 * i), values (3 * i + 1), values (3 * i + 2)⟩)) := by
  intro m
  induction m with
  | zero =>
    intro fuel j spursData hlen _
    unfold AgSsa.parseLoop
    rw [if_neg (by omega)]
    simp
  | succ m ih =>
    intro fuel j spursData hlen hfuel
    obtain ⟨fuel, rfl⟩ : ∃ f, fuel = f + 1 := ⟨fuel - 1, by omega⟩
    have h0 : 3 * j < fields.length := by omega
    have h1 : 3 * j + 1 < fields.length := by omega
    have h2 : 3 * j + 2 < fields.length := by omega
    have s0 := hnum (3 * j) _ (List.getElem?_eq_getElem h0)
    have s1 := hnum (3 * j + 1) _ (List.getElem?_eq_getElem h1)
    have s2 := hnum (3 * j + 2) _ (List.getElem?_eq_getElem h2)
    unfold AgSsa.parseLoop
    rw [if_pos h0]
    simp only [subscript_eq_ok _ _ h0, subscript_eq_ok _ _ h1, subscript_eq_ok _ _ h2,
      AgSsa.callStod, s0, s1, s2, bind, Except.bind]
    have hidx : 3 * j + AgSsa.spurParamsNum = 3 * (j + 1) := by
      have : AgSsa.spurParamsNum = 3 := by decide
      omega
    rw [hidx, ih fuel (j + 1) _ (by omega) (by omega)]
    simp [List.range'_succ]

theorem parseLoop_throws (stod : List Char → Option ViReal64) (fields : List (List Char))
    (k : Nat) (hlen : fields.length = 3 * k) :
    ∀ (fuel j : Nat) (spursData : AgSsa.CSpursData), k - j ≤ fuel →
      (∃ i f, 3 * j ≤ i ∧ fields[i]? = some f ∧ stod f = none) →
      AgSsa.parseLoop stod fields fuel (3 * j) spursData = .error .uncaughtException := by
  intro fuel
  induction fuel with
  | zero =>
    intro j spursData hfuel hbad
    obtain ⟨i, f, hi, hf, _⟩ := hbad
    have hlt : i < fields.length := by
      by_contra hn
      rw [List.getElem?_eq_none (by omega)] at hf
      cases hf
    omega
  | succ fuel ih =>
    intro j spursData hfuel hbad
    obtain ⟨i, f, hi, hf, hnone⟩ := hbad
    have hlt : i < fields.length := by
      by_contra hn
      rw [List.getElem?_eq_none (by omega)] at hf
      cases hf
    have h0 : 3 * j < fields.length := by omega
    have h1 : 3 * j + 1 < fields.length := by omega
    have h2 : 3 * j + 2 < fields.length := by omega
    have hidx : 3 * j + AgSsa.spurParamsNum = 3 * (j + 1) := by
      have : AgSsa.spurParamsNum = 3 := by decide
      omega
    unfold AgSsa.parseLoop
    rw [if_pos h0]
    simp only [subscript_eq_ok _ _ h0, subscript_eq_ok _ _ h1, subscript_eq_ok _ _ h2,
      AgSsa.callStod, bind, Except.bind]
    cases s0 : stod fields[3 * j] with
    | none => rfl
    | some x0 =>
      cases s1 : stod fields[3 * j + 1] with
      | none => rfl
      | some x1 =>
        cases s2 : stod fields[3 * j + 2] with
        | none => rfl
        | some x2 =>
          simp only [hidx]
          apply ih (j + 1) _ (by omega)
          refine ⟨i, f, ?_, hf, hnone⟩
          by_contra hn
          have hcases : i = 3 * j ∨ i = 3 * j + 1 ∨ i = 3 * j + 2 := by omega
          rcases hcases with h | h | h <;> subst h
          · rw [List.getElem?_eq_getElem h0] at hf
            cases hf
            rw [s0] at hnone
            cases hnone
          · rw [List.getElem?_eq_getElem h1] at hf
            cases hf
            rw [s1] at hnone
            cases hnone
          · rw [List.getElem?_eq_getElem h2] at hf
            cases hf
            rw [s2] at hnone
            cases hnone

/-- For a response of `3 * k` fields one of which `std::stod` does not convert, the
parsing step ends by the uncaught exception and returns no records. -/
theorem parseStep_throws_of_unconverted_field (stod : List Char → Option ViReal64)
    (retString : List Char) (fields : List (List Char)) (k : Nat)
    (spursData : AgSsa.CSpursData)
    (hfields : [','].intercalate fields = retString) (hcomma : ∀ f ∈ fields, ',' ∉ f)
    (hlen : fields.length = 3 * k) (hk : 1 ≤ k)
    (hbad : ∃ f ∈ fields, stod f = none) :
    AgSsa.parseStep stod retString spursData = .error .uncaughtException := by
  have hne : fields ≠ [] := by
    intro h
    rw [h] at hlen
    simp at hlen
    omega
  obtain ⟨f, hf, hnone⟩ := hbad
  obtain ⟨i, hi, hget⟩ := List.getElem_of_mem hf
  unfold AgSsa.parseStep
  rw [← hfields, splitSeparatedString_comma_fields fields hne hcomma]
  show AgSsa.parseLoop stod fields fields.length 0 spursData = _
  exact parseLoop_throws stod fields k hlen fields.length 0 spursData (by omega)
    ⟨i, f, by omega, by rw [List.getElem?_eq_getElem hi, hget], hnone⟩

/-- C3, as stated, fails: the response ",," has the three comma-separated fields
"", "", "" (3 * 1 fields), `std::stod` throws on the empty field, and the parsing
step appends no record: it ends by the uncaught exception. -/
theorem parseStep_empty_fields_no_record :
    [','].intercalate [[], [], []] = ",,".toList ∧
    AgSsa.splitSeparatedString ",,".toList [','] = .ok [[], [], []] ∧
    ([[], [], []] : List (List Char)).length = 3 * 1 ∧
    AgSsa.parseStep stod_throws_on_empty ",,".toList [] = .error .uncaughtException := by
  decide

/-- C3, amended: for every response string whose comma-separated fields number
`3 * k` with `k ≥ 1` and each of whose fields `std::stod` converts (`values i` is the
value it returns for field `i`), the parsing step of `QuerySpuriousList` appends
exactly `k` records after the existing contents of `spursData`, in response order,
and record `i` has `Frequency`, `Amplitude` and `Unknown` equal to the values of
the fields `3 * i`, `3 * i + 1` and `3 * i + 2`. -/
theorem parseStep_appends_records (stod : List Char → Option ViReal64)
    (retString : List Char) (fields : List (List Char)) (k : Nat) (values : Nat → ViReal64)
    (spursData : AgSsa.CSpursData)
    (hfields : [','].intercalate fields = retString) (hcomma : ∀ f ∈ fields, ',' ∉ f)
    (hlen : fields.length = 3 * k) (hk : 1 ≤ k)
    (hnum : ∀ i f, fields[i]? = some f → stod f = some (values i)) :
    AgSsa.parseStep stod retString spursData =
      .ok (spursData ++ (List.range k).map
        (fun i => ⟨values (3 * i), values (3 * i + 1), values (3 * i + 2)⟩)) := by
  have hne : fields ≠ [] := by
    intro h
    rw [h] at hlen
    simp at hlen
    omega
  unfold AgSsa.parseStep
  rw [← hfields, splitSeparatedString_comma_fields fields hne hcomma]
  show AgSsa.parseLoop stod fields fields.length 0 spursData = _
  have := parseLoop_spec stod fields values hnum k fields.length 0 spursData
    (by omega) (by omega)
  rw [List.range_eq_range']
  exact this

/-- Witness of C3 (amended): the response "1,2,3,4,5,6", each field converted to
its digit, appends the records (1, 2, 3) and (4, 5, 6), in this order, after the
record already there. -/
theorem parseStep_appends_records_witness :
    AgSsa.parseStep stod_digit "1,2,3,4,5,6".toList [⟨0, 0, 0⟩] =
      .ok [⟨0, 0, 0⟩, ⟨1, 2, 3⟩, ⟨4, 5, 6⟩] :=
  parseStep_appends_records stod_digit "1,2,3,4,5,6".toList
    ["1".toList, "2".toList, "3".toList, "4".toList, "5".toList, "6".toList] 2
    (fun i => .finite ((i + 1 : Nat) : ℚ)) [⟨0, 0, 0⟩] (by decide) (by decide) (by decide)
    (by decide)
    (by
      intro i f h
      rcases i with _ | _ | _ | _ | _ | _ | i <;> simp at h <;> subst h <;> rfl)

/-! ## Reading the response in chunks -/

/-- C12: for every millisecond timeout `t`, `WaitForOperationComplete` (in both
wrappers) passes to the driver the value of `t` converted to a signed 32-bit
integer, exactly `t` when `0 ≤ t ≤ 2^31 - 1` and in every case the value of the
signed 32-bit range congruent to `t` modulo 2^32; the status returned is the
driver's status. -/
theorem WaitForOperationComplete_narrows_timeout (driver : ViInt32 → ViStatus) (t : Int) :
    AgSsa.WaitForOperationComplete driver t = driver (narrowToViInt32 t) ∧
    AgXSAn.WaitForOperationComplete driver t = driver (narrowToViInt32 t) ∧
    (0 ≤ t ∧ t ≤ 2147483647 → narrowToViInt32 t = t) ∧
    (-2147483648 ≤ narrowToViInt32 t ∧ narrowToViInt32 t ≤ 2147483647) ∧
    (narrowToViInt32 t - t) % 4294967296 = 0 := by
  refine ⟨rfl, rfl, ?_, ?_, ?_⟩
  · intro h
    unfold narrowToViInt32
    show (t + 2147483648) % 4294967296 - 2147483648 = t
    omega
  · unfold narrowToViInt32
    show (-2147483648 : Int) ≤ (t + 2147483648) % 4294967296 - 2147483648 ∧
      (t + 2147483648) % 4294967296 - 2147483648 ≤ (2147483647 : Int)
    omega
  · unfold narrowToViInt32
    show ((t + 2147483648) % 4294967296 - 2147483648 - t) % 4294967296 = (0 : Int)
    omega

/-! ## Round trip of the offsets -/

/-- C13: for every enumerator `v` of `FrequencyStartOffset` (respectively
`FrequencyStopOffset`), if the driver's read returns `VI_SUCCESS` with the real
value that `ConfigureStartOffset v` (respectively `ConfigureStopOffset v`) sends to
the driver, then `QueryStartOffset` (respectively `QueryStopOffset`) returns
`VI_SUCCESS` and outputs `v`. -/
theorem offset_round_trip (V : VisaCodes) :
    (∀ v ∈ AgSsa.FrequencyStartOffset.enumerators, ∀ value,
      AgSsa.QueryStartOffset V V.VI_SUCCESS (AgSsa.ConfigureStartOffset v) value =
        .ok (V.VI_SUCCESS, v)) ∧
    (∀ v ∈ AgSsa.FrequencyStopOffset.enumerators, ∀ value,
      AgSsa.QueryStopOffset V V.VI_SUCCESS (AgSsa.ConfigureStopOffset v) value =
        .ok (V.VI_SUCCESS, v)) := by
  constructor
  · intro v hv value
    simp only [AgSsa.FrequencyStartOffset.enumerators, List.mem_cons, List.mem_singleton,
      List.not_mem_nil, or_false] at hv
    unfold AgSsa.QueryStartOffset AgSsa.ConfigureStartOffset
    rcases hv with h | h | h | h <;> subst h <;>
      rw [if_pos rfl, toViInt32_ofViInt32 _ (by decide)] <;>
      simp [bind, Except.bind, pure, Except.pure, AgSsa.FrequencyStartOffset._1Hz,
        AgSsa.FrequencyStartOffset._10Hz, AgSsa.FrequencyStartOffset._100Hz,
        AgSsa.FrequencyStartOffset._1kHz]
  · intro v hv value
    simp only [AgSsa.FrequencyStopOffset.enumerators, List.mem_cons, List.mem_singleton,
      List.not_mem_nil, or_false] at hv
    unfold AgSsa.QueryStopOffset AgSsa.ConfigureStopOffset
    rcases hv with h | h | h | h | h | h | h <;> subst h <;>
      rw [if_pos rfl, toViInt32_ofViInt32 _ (by decide)] <;>
      simp [bind, Except.bind, pure, Except.pure, AgSsa.FrequencyStopOffset._100kHz,
        AgSsa.FrequencyStopOffset._1MHz, AgSsa.FrequencyStopOffset._5MHz,
        AgSsa.FrequencyStopOffset._10MHz, AgSsa.FrequencyStopOffset._20MHz,
        AgSsa.FrequencyStopOffset._40MHz, AgSsa.FrequencyStopOffset._100MHz]

/-! ## Capacity announced by `QueryCarrierData` -/

theorem QueryCarrierData_capacity (V : VisaCodes)
    (Get_CarrierData : ViInt32 → AgSsa.CarrierDataReply) (data : AgSsa.CCarrierData) :
    AgSsa.QueryCarrierData V Get_CarrierData data =
      AgSsa.QueryCarrierData V (fun _ => Get_CarrierData 16) data := rfl

/-- C15 fails on every call: the receive buffer holds 2 `ViReal64` elements, the
count the driver is required to report back, and the capacity announced to the
driver is 16, the size of the buffer in bytes (a driver that writes the capacity
it is told into the buffer makes the wrapper output 16). -/
theorem QueryCarrierData_announces_byte_size :
    AgSsa.sizeofCCarrierData / AgSsa.sizeofViReal64 = 2 ∧
    AgSsa.sizeofCCarrierData = 16 ∧
    AgSsa.QueryCarrierData visa carrierData_echo_capacity ⟨0, 0⟩ =
      (visa.VI_SUCCESS, ⟨ofViInt32 16, ofViInt32 16⟩) := by
  decide

/-! ## Option strings -/

/-- C16: in both wrappers `MakeOptionsString` returns "Simulate=true" when
`options.Simulate` is set and "Simulate=false" otherwise if the model is `Common`;
that text followed by ", DriverSetup=Model=E5052B" (phase-noise wrapper) or
", DriverSetup=Model=N9030A" (spectrum-analyzer wrapper) if the model is that
named model; and the empty string for every other model value.  The `Reset` and
`idQuery` options do not affect the string. -/
theorem MakeOptionsString_text (ssa : AgSsa.CAgSsa) (options : AgSsa.CAgSsaOptions)
    (xsan : AgXSAn.CAgXSAn) (xoptions : AgXSAn.CAgXSAnOptions) :
    (AgSsa.MakeOptionsString ssa options).1 =
      (if options.Model = AgSsa.AgSsaModel.Common then
        (if options.Simulate then "Simulate=true" else "Simulate=false")
      else if options.Model = AgSsa.AgSsaModel.E5052B then
        (if options.Simulate then "Simulate=true, DriverSetup=Model=E5052B"
          else "Simulate=false, DriverSetup=Model=E5052B")
      else "") ∧
    (AgXSAn.MakeOptionsString xsan xoptions).1 =
      (if xoptions.Model = AgXSAn.AgXSAnModel.Common then
        (if xoptions.Simulate then "Simulate=true" else "Simulate=false")
      else if xoptions.Model = AgXSAn.AgXSAnModel.N9030A then
        (if xoptions.Simulate then "Simulate=true, DriverSetup=Model=N9030A"
          else "Simulate=false, DriverSetup=Model=N9030A")
      else "") ∧
    (∀ reset query : Bool,
      (AgSsa.MakeOptionsString ssa { options with Reset := reset, idQuery := query }).1 =
        (AgSsa.MakeOptionsString ssa options).1 ∧
      (AgXSAn.MakeOptionsString xsan { xoptions with Reset := reset, idQuery := query }).1 =
        (AgXSAn.MakeOptionsString xsan xoptions).1) := by
  refine ⟨?_, ?_, ?_⟩
  · unfold AgSsa.MakeOptionsString
    by_cases hc : options.Model = AgSsa.AgSsaModel.Common
    · cases hs : options.Simulate <;> simp [hc]
    · by_cases he : options.Model = AgSsa.AgSsaModel.E5052B
      · cases hs : options.Simulate <;> simp [hc, he]
      · cases hs : options.Simulate <;> simp [hc, he]
  · unfold AgXSAn.MakeOptionsString
    by_cases hc : xoptions.Model = AgXSAn.AgXSAnModel.Common
    · cases hs : xoptions.Simulate <;> simp [hc]
    · by_cases he : xoptions.Model = AgXSAn.AgXSAnModel.N9030A
      · cases hs : xoptions.Simulate <;> simp [hc, he]
      · cases hs : xoptions.Simulate <;> simp [hc, he]
  · intro reset query
    exact ⟨rfl, rfl⟩

/-! ## The argument-list form of `QuerySweepTime` -/

/-- C17: the argument-list form of `QuerySweepTime` (admitted for 1 to 20
arguments) leaves every one of the caller's arguments unchanged, whatever values
and status the driver returns: only the status of the driver's reply to the call
reaches the caller. -/
theorem QuerySweepTimeArgs_keeps_arguments
    (driver : AgXSAn.RangeTableCall ViReal64 → AgXSAn.SweepTimeReply)
    (args : List ViReal64) :
    AgXSAn.QuerySweepTimeArgsResult driver args =
      if 1 ≤ args.length ∧ args.length ≤ 20 then
        some ((driver ⟨.QuerySweepTime, args.length, args⟩).status, args)
      else none := by
  unfold AgXSAn.QuerySweepTimeArgsResult AgXSAn.QuerySweepTimeArgs
  rw [argsForm_eq]
  by_cases h : 1 ≤ args.length ∧ args.length ≤ 20
  · rw [if_pos h, if_pos h]
  · rw [if_neg h, if_neg h]

theorem QuerySweepTime_table_receives_data
    (driver : AgXSAn.RangeTableCall ViReal64 → AgXSAn.SweepTimeReply)
    (table : List ViReal64) :
    AgXSAn.QuerySweepTimeResult driver table =
      if 1 ≤ table.length ∧ table.length ≤ 20 then
        some ((driver ⟨.QuerySweepTime, table.length, table⟩).status,
          (driver ⟨.QuerySweepTime, table.length, table⟩).data)
      else none := by
  unfold AgXSAn.QuerySweepTimeResult AgXSAn.QuerySweepTime
  rw [tableForm_eq]
  by_cases h : 1 ≤ table.length ∧ table.length ≤ 20
  · rw [if_pos h, if_pos h]
  · rw [if_neg h, if_neg h]

/-! ## Sessions -/

/-- C18: in both wrappers `IsOpen` is true exactly when the stored session handle is
non-zero; after `Close` the stored handle is 0 and `IsOpen` is false, from every
prior state and whatever status the driver's close call returned; `Close` does not
change the stored options, so `IsSimulate` is unaffected. -/
theorem Close_resets_session (ssa : AgSsa.CAgSsa) (xsan : AgXSAn.CAgXSAn)
    (closeStatus : ViStatus) :
    ((AgSsa.IsOpen ssa = true ↔ ssa.m_Session ≠ 0) ∧
      (AgSsa.Close closeStatus ssa).m_Session = 0 ∧
      AgSsa.GetSession (AgSsa.Close closeStatus ssa) = 0 ∧
      AgSsa.IsOpen (AgSsa.Close closeStatus ssa) = false ∧
      (AgSsa.Close closeStatus ssa).m_Options = ssa.m_Options ∧
      AgSsa.IsSimulate (AgSsa.Close closeStatus ssa) = AgSsa.IsSimulate ssa) ∧
    ((AgXSAn.IsOpen xsan = true ↔ xsan.m_Session ≠ 0) ∧
      (AgXSAn.Close closeStatus xsan).m_Session = 0 ∧
      AgXSAn.GetSession (AgXSAn.Close closeStatus xsan) = 0 ∧
      AgXSAn.IsOpen (AgXSAn.Close closeStatus xsan) = false ∧
      (AgXSAn.Close closeStatus xsan).m_Options = xsan.m_Options ∧
      AgXSAn.IsSimulate (AgXSAn.Close closeStatus xsan) = AgXSAn.IsSimulate xsan) := by
  refine ⟨⟨?_, rfl, rfl, ?_, rfl, rfl⟩, ⟨?_, rfl, rfl, ?_, rfl, rfl⟩⟩
  · simp [AgSsa.IsOpen]
  · simp [AgSsa.IsOpen, AgSsa.Close]
  · simp [AgXSAn.IsOpen]
  · simp [AgXSAn.IsOpen, AgXSAn.Close]

/-! ## Indices used by the record loop -/

theorem subscript_outOfBounds (v : List (List Char)) (idx : Nat) (h : v.length ≤ idx) :
    AgSsa.subscript v idx = .error .outOfBounds := by
  unfold AgSsa.subscript
  rw [List.getElem?_eq_none h]

theorem subscript_ok_lt (v : List (List Char)) (idx : Nat) (f : List Char)
    (h : AgSsa.subscript v idx = .ok f) : idx < v.length := by
  by_contra hn
  rw [subscript_outOfBounds v idx (by omega)] at h
  cases h

theorem subscript_error (v : List (List Char)) (idx : Nat) (e : Fault)
    (h : AgSsa.subscript v idx = .error e) : e = .outOfBounds ∧ v.length ≤ idx := by
  by_cases hlt : idx < v.length
  · rw [subscript_eq_ok v idx hlt] at h
    cases h
  · rw [subscript_outOfBounds v idx (by omega)] at h
    cases h
    exact ⟨rfl, by omega⟩

theorem callStod_error (stod : List Char → Option ViReal64) (f : List Char) (e : Fault)
    (h : AgSsa.callStod stod f = .error e) : e = .uncaughtException := by
  unfold AgSsa.callStod at h
  cases hs : stod f with
  | none => rw [hs] at h; cases h; rfl
  | some v => rw [hs] at h; cases h

theorem spurParamsNum_eq_three : AgSsa.spurParamsNum = 3 := by decide

theorem parseLoopIndices_inside (stod : List Char → Option ViReal64)
    (fields : List (List Char)) (k : Nat) (hlen : fields.length = 3 * k) :
    ∀ (fuel j : Nat), ∀ i ∈ AgSsa.parseLoopIndices stod fields fuel (3 * j),
      i < fields.length := by
  intro fuel
  induction fuel with
  | zero =>
    intro j i hi
    unfold AgSsa.parseLoopIndices at hi
    split at hi <;> simp at hi
  | succ fuel ih =>
    intro j i hi
    unfold AgSsa.parseLoopIndices at hi
    split at hi
    · rename_i hlt
      simp only [List.mem_cons] at hi
      rcases hi with h | hi
      · omega
      · split at hi
        · simp at hi
        · simp only [List.mem_cons] at hi
          rcases hi with h | hi
          · omega
          · split at hi
            · simp at hi
            · simp only [List.mem_cons] at hi
              rcases hi with h | hi
              · omega
              · split at hi
                · simp at hi
                · rw [spurParamsNum_eq_three] at hi
                  exact ih (j + 1) i hi
    · simp at hi

theorem fieldValue_ok (stod : List Char → Option ViReal64) (fields : List (List Char))
    (hconv : ∀ f ∈ fields, stod f ≠ none) (i : Nat) (h : i < fields.length) :
    ∃ v, (AgSsa.subscript fields i >>= AgSsa.callStod stod) = .ok v := by
  rw [subscript_eq_ok fields i h]
  cases hs : stod fields[i] with
  | none => exact absurd hs (hconv _ (List.getElem_mem h))
  | some v =>
    refine ⟨v, ?_⟩
    show AgSsa.callStod stod fields[i] = .ok v
    unfold AgSsa.callStod
    rw [hs]

theorem fieldValue_outOfBounds (stod : List Char → Option ViReal64)
    (fields : List (List Char)) (i : Nat) (h : fields.length ≤ i) :
    (AgSsa.subscript fields i >>= AgSsa.callStod stod) = .error .outOfBounds := by
  rw [subscript_outOfBounds fields i h]
  rfl

theorem parseLoopIndices_outside (stod : List Char → Option ViReal64)
    (fields : List (List Char)) (hconv : ∀ f ∈ fields, stod f ≠ none)
    (hmod : ¬ 3 ∣ fields.length) :
    ∀ (fuel j : Nat), 3 * j ≤ fields.length → fields.length - 3 * j ≤ fuel →
      ∃ i ∈ AgSsa.parseLoopIndices stod fields fuel (3 * j), fields.length ≤ i := by
  intro fuel
  induction fuel with
  | zero =>
    intro j h1 h2
    exact absurd ⟨j, by omega⟩ hmod
  | succ fuel ih =>
    intro j h1 h2
    have h0 : 3 * j < fields.length := by
      rcases Nat.lt_or_ge (3 * j) fields.length with h | h
      · exact h
      · exact absurd ⟨j, by omega⟩ hmod
    unfold AgSsa.parseLoopIndices
    rw [if_pos h0]
    obtain ⟨v0, e0⟩ := fieldValue_ok stod fields hconv (3 * j) h0
    simp only [e0]
    by_cases hlt1 : 3 * j + 1 < fields.length
    · obtain ⟨v1, e1⟩ := fieldValue_ok stod fields hconv (3 * j + 1) hlt1
      simp only [e1]
      by_cases hlt2 : 3 * j + 2 < fields.length
      · obtain ⟨v2, e2⟩ := fieldValue_ok stod fields hconv (3 * j + 2) hlt2
        simp only [e2]
        rw [spurParamsNum_eq_three]
        obtain ⟨i, hi, hge⟩ := ih (j + 1) (by omega) (by omega)
        refine ⟨i, ?_, hge⟩
        simp only [List.mem_cons]
        exact Or.inr (Or.inr (Or.inr hi))
      · exact ⟨3 * j + 2, by simp, by omega⟩
    · exact ⟨3 * j + 1, by simp, by omega⟩

theorem parseLoop_outOfBounds_iff (stod : List Char → Option ViReal64)
    (fields : List (List Char)) :
    ∀ (fuel idx : Nat) (spursData : AgSsa.CSpursData),
      AgSsa.parseLoop stod fields fuel idx spursData = .error .outOfBounds ↔
        ∃ i ∈ AgSsa.parseLoopIndices stod fields fuel idx, fields.length ≤ i := by
  intro fuel
  induction fuel with
  | zero =>
    intro idx spursData
    unfold AgSsa.parseLoop AgSsa.parseLoopIndices
    split <;> simp
  | succ fuel ih =>
    intro idx spursData
    unfold AgSsa.parseLoop AgSsa.parseLoopIndices
    by_cases h0 : idx < fields.length
    · rw [if_pos h0, if_pos h0]
      cases s0 : AgSsa.subscript fields idx with
      | error e =>
        obtain ⟨rfl, hge⟩ := subscript_error _ _ _ s0
        omega
      | ok f0 =>
        cases c0 : AgSsa.callStod stod f0 with
        | error e =>
          obtain rfl := callStod_error _ _ _ c0
          simp only [bind, Except.bind, c0]
          simp
          omega
        | ok x0 =>
          cases s1 : AgSsa.subscript fields (idx + 1) with
          | error e =>
            obtain ⟨rfl, hge⟩ := subscript_error _ _ _ s1
            simp only [bind, Except.bind, c0, s1]
            simp
            omega
          | ok f1 =>
            have hlt1 := subscript_ok_lt _ _ _ s1
            cases c1 : AgSsa.callStod stod f1 with
            | error e =>
              obtain rfl := callStod_error _ _ _ c1
              simp only [bind, Except.bind, c0, s1, c1]
              simp
              omega
            | ok x1 =>
              cases s2 : AgSsa.subscript fields (idx + 2) with
              | error e =>
                obtain ⟨rfl, hge⟩ := subscript_error _ _ _ s2
                simp only [bind, Except.bind, c0, s1, c1, s2]
                simp
                omega
              | ok f2 =>
                have hlt2 := subscript_ok_lt _ _ _ s2
                cases c2 : AgSsa.callStod stod f2 with
                | error e =>
                  obtain rfl := callStod_error _ _ _ c2
                  simp only [bind, Except.bind, c0, s1, c1, s2, c2]
                  simp
                  omega
                | ok x2 =>
                  simp only [bind, Except.bind, c0, s1, c1, s2, c2, List.mem_cons,
                    exists_eq_or_imp]
                  rw [ih]
                  constructor
                  · intro h; exact Or.inr (Or.inr (Or.inr h))
                  · rintro (h | h | h | h)
                    · omega
                    · omega
                    · omega
                    · exact h
    · rw [if_neg h0, if_neg h0]
      simp

theorem splitSeparatedString_comma_count (retString : List Char) :
    ∃ fields, AgSsa.splitSeparatedString retString [','] = .ok fields ∧
      fields.length = retString.count ',' + 1 := by
  obtain ⟨fields, h1, h2, h3, h4⟩ := splitSeparatedString_spec retString [','] (by simp)
  refine ⟨fields, h1, ?_⟩
  have := count_intercalate_singleton ',' fields h2
    (fun p hp hm => h3 p hp ((singleton_infix_iff_mem ',' p).mpr hm))
  rw [h4] at this
  omega

/-- C14, as stated, fails at the empty response: it splits into one empty field, and
1 is no multiple of 3, yet the loop uses the index 0 only, which is below the
number of fields: the conversion of the empty field throws before the index 1 is
used, and the function ends by the uncaught exception, not by a subscript past
the end. -/
theorem parseLoop_empty_response_stops_at_conversion :
    AgSsa.splitSeparatedString [] [','] = .ok [[]] ∧
    ¬ 3 ∣ ([[]] : List (List Char)).length ∧
    AgSsa.parseLoopIndices stod_throws_on_empty [[]] 1 0 = [0] ∧
    (∀ i ∈ AgSsa.parseLoopIndices stod_throws_on_empty [[]] 1 0,
      i < ([[]] : List (List Char)).length) ∧
    AgSsa.parseStep stod_throws_on_empty [] [] = .error .uncaughtException := by
  decide

/-- C14, amended: the record-parsing loop of `QuerySpuriousList` reads only fields
that exist in the split list (every index it uses is below the number of fields)
if the number of comma-separated fields of the response is a multiple of 3, and,
when `std::stod` converts every field, only if it is; the parsing step ends by a
subscript past the end exactly when such an index is used.  For the empty
response, which splits into one empty field, on which `std::stod` throws, the loop
uses the index 0 only and the parsing step ends by the uncaught exception. -/
theorem parseLoop_indices_inside_iff (stod : List Char → Option ViReal64)
    (retString : List Char) :
    (∃ fields, AgSsa.splitSeparatedString retString [','] = .ok fields ∧
      fields.length = retString.count ',' + 1 ∧
      (3 ∣ fields.length →
        ∀ i ∈ AgSsa.parseLoopIndices stod fields fields.length 0, i < fields.length) ∧
      ((∀ f ∈ fields, stod f ≠ none) →
        ((∀ i ∈ AgSsa.parseLoopIndices stod fields fields.length 0, i < fields.length) ↔
          3 ∣ fields.length)) ∧
      (∀ spursData, AgSsa.parseStep stod retString spursData = .error .outOfBounds ↔
        ∃ i ∈ AgSsa.parseLoopIndices stod fields fields.length 0, fields.length ≤ i)) ∧
    (stod [] = none →
      AgSsa.splitSeparatedString [] [','] = .ok [[]] ∧
      AgSsa.parseLoopIndices stod [[]] 1 0 = [0] ∧
      ∀ spursData, AgSsa.parseStep stod [] spursData = .error .uncaughtException) := by
  constructor
  · obtain ⟨fields, hsplit, hcount⟩ := splitSeparatedString_comma_count retString
    have hinside : 3 ∣ fields.length →
        ∀ i ∈ AgSsa.parseLoopIndices stod fields fields.length 0, i < fields.length := by
      rintro ⟨k, hk⟩ i hi
      exact parseLoopIndices_inside stod fields k hk fields.length 0 i hi
    refine ⟨fields, hsplit, hcount, hinside, ?_, ?_⟩
    · intro hconv
      constructor
      · intro hall
        by_contra hmod
        obtain ⟨i, hi, hge⟩ :=
          parseLoopIndices_outside stod fields hconv hmod fields.length 0 (by omega) (by omega)
        have := hall i hi
        omega
      · exact hinside
    · intro spursData
      unfold AgSsa.parseStep
      rw [hsplit]
      exact parseLoop_outOfBounds_iff stod fields fields.length 0 spursData
  · intro hempty
    have hsplit : AgSsa.splitSeparatedString [] [','] = .ok [[]] := by decide
    refine ⟨hsplit, ?_, ?_⟩
    · simp [AgSsa.parseLoopIndices, AgSsa.subscript, AgSsa.callStod, hempty, bind,
        Except.bind]
    · intro spursData
      unfold AgSsa.parseStep
      rw [hsplit]
      simp [AgSsa.parseLoop, AgSsa.subscript, AgSsa.callStod, hempty, bind, Except.bind]
